import Mathlib

/-!
# The rendering core of compton (`src/render.c`)

A shallow embedding of the painting code of `src/render.c` and of the types of
`src/types.h`, with the properties its specification states about it.

Conventions of the embedding.

* X resource handles (`xcb_pixmap_t`, `xcb_render_picture_t`, ...) are natural
  numbers; `XCB_NONE` is `0`.
* A C `double` is a rational number: the arithmetic on doubles is exact here.
* A C `int` is an integer.  Where the source converts between integer types the
  conversion is written out (`to_int`, `to_int16`, ...).
* A function that sends requests to the X server returns the list of requests
  it issued, in program order, next to the state it leaves.
* What the X server answers (fresh identifiers, created pictures) is an input of
  the function that asks.
-/

namespace Compton

/-! ## Types -/

/-- The constant `XCB_NONE` of the X protocol. -/
def XCB_NONE : Nat := 0

/-- The backends `ps->o.backend` ranges over (`enum backend`, options.h). -/
inductive backend_t
  | BKEND_XRENDER
  | BKEND_GLX
  | BKEND_XR_GLX_HYBRID
  deriving DecidableEq, Repr

/-- The structure `margin_t` of types.h: four `unsigned int` margins. -/
structure margin_t where
  top : Nat
  left : Nat
  bottom : Nat
  right : Nat
  deriving DecidableEq, Repr

/-- The structure `glx_texture_t` (opengl.h): the fields the binding test reads. -/
structure glx_texture_t where
  texture : Nat
  glpixmap : Nat
  pixmap : Nat
  deriving DecidableEq, Repr

/-- The structure `paint_t`: the pixmap, the picture over it and the GLX texture
(a null `ptex` is `none`). -/
structure paint_t where
  pixmap : Nat
  pict : Nat
  ptex : Option glx_texture_t
  deriving DecidableEq, Repr

/-- A pixman region, as the finite set of pixels it covers. -/
abbrev region_t := Finset (Int × Int)

/-- The fields of `session_t` (common.h) the painting code reads.  `config_opengl`
says whether the build defines `CONFIG_OPENGL`, `config_xinerama` whether it
defines `CONFIG_XINERAMA`, `max_alpha` is the constant `MAX_ALPHA` and
`max_blur_pass` the constant `MAX_BLUR_PASS`.  `o_vsync` says whether
`ps->o.vsync` is set and `glx_has_context` is `glx_has_context(ps)`.  A blur
kernel is the array of its fixed-point entries, width and height first;
`o_blur_kerns` holds the kernels of `ps->o.blur_kerns` in front of the first
null entry, and `blur_kerns_cache` the entries of `ps->blur_kerns_cache`, the
missing ones being null. -/
structure session_t where
  config_opengl : Bool
  config_xinerama : Bool
  o_backend : backend_t
  has_name_pixmap : Bool
  o_glx_no_rebind_pixmap : Bool
  o_force_win_blend : Bool
  o_inactive_dim : ℚ
  o_inactive_dim_fixed : Bool
  o_blur_background_frame : Bool
  o_blur_background_fixed : Bool
  o_xinerama_shadow_crop : Bool
  o_xrender_sync_fence : Bool
  o_vsync : Bool
  o_vsync_aggressive : Bool
  o_vsync_use_glfinish : Bool
  o_monitor_repaint : Bool
  glx_has_context : Bool
  sync_fence : Nat
  max_alpha : Nat
  alpha_picts : List Nat
  max_blur_pass : Nat
  o_blur_kerns : List (List Int)
  blur_kerns_cache : List (Option (List Int))
  white_picture : Nat
  cshadow_picture : Nat
  tgt_picture : Nat
  tgt_buffer : paint_t
  root_tile_paint : paint_t
  root_width : Int
  root_height : Int
  screen_reg : region_t
  shadow_exclude_reg : region_t
  xinerama_nscrs : Int
  xinerama_scr_regs : List region_t

/-- The fields of `win` (win.h) the painting code reads.  Values the source gets
from helpers of win.h are fields here: `has_alpha` is `win_has_alpha(w)`,
`is_solid` is `win_is_solid(ps, w)`, `opacity_percent` is
`get_opacity_percent(w)`, `frame_extents` is `win_calc_frame_extents(w)`,
`bshape_global` is `win_get_bounding_shape_global_by_val(w)`,
`reg_noframe_local` is the region `win_get_region_noframe_local` yields and
`full_shadow` is `ps->o.wintype_option[w->window_type].full_shadow`. -/
structure win where
  id : Nat
  g_x : Int
  g_y : Int
  widthb : Int
  heightb : Int
  pictfmt : Nat
  paint : paint_t
  pixmap_damaged : Bool
  invert_color : Bool
  has_alpha : Bool
  is_solid : Bool
  dim : Bool
  opacity_percent : ℚ
  frame_opacity : ℚ
  frame_extents : margin_t
  blur_background : Bool
  shadow : Bool
  shadow_dx : Int
  shadow_dy : Int
  shadow_width : Int
  shadow_height : Int
  shadow_opacity : ℚ
  shadow_paint : paint_t
  full_shadow : Bool
  xinerama_scr : Int
  reg_ignore : region_t
  bshape_global : region_t
  reg_noframe_local : region_t

/-! ## Integer conversions and small helpers -/

/-- Conversion of an `unsigned int` to `int` (`const int t = extents.top`):
the value is kept when it fits, and wraps by 2^32 otherwise. -/
def to_int (u : Nat) : Int :=
  if u % 2 ^ 32 < 2 ^ 31 then ((u % 2 ^ 32 : Nat) : Int) else ((u % 2 ^ 32 : Nat) : Int) - 2 ^ 32

/-- Narrowing of an `int` to `int16_t` (the `x`, `y` of `xcb_rectangle_t`). -/
def to_int16 (i : Int) : Int :=
  if i % 65536 < 32768 then i % 65536 else i % 65536 - 65536

/-- Narrowing of an `int` to `uint16_t` (the `width`, `height` of
`xcb_rectangle_t`). -/
def to_uint16 (i : Int) : Int :=
  i % 65536

/-- Conversion of a `double` to an integer type: the fraction is dropped
(rounding toward zero). -/
def trunc (q : ℚ) : Int :=
  q.num.tdiv q.den

/-- Modelled from the spec: `min_i` comes from a header that is not among the
sources; the frame margins are clamped so that they never exceed the window
dimensions, so it is the smaller of its two `int` arguments. -/
def min_i (a b : Int) : Int :=
  if a < b then a else b

/-- Modelled from the spec: `glx_tex_binded` is declared in opengl.h, which is
not among the sources.  A GPU texture is bound when it exists, holds a texture
and a GL pixmap, and (when a pixmap is asked for) was bound from that pixmap. -/
def glx_tex_binded (ptex : Option glx_texture_t) (pixmap : Nat) : Bool :=
  match ptex with
  | none => false
  | some tex => tex.glpixmap != 0 && tex.texture != 0 && (pixmap == 0 || pixmap == tex.pixmap)

/-- The function `bkend_use_xrender`. -/
def bkend_use_xrender (ps : session_t) : Bool :=
  ps.o_backend == backend_t.BKEND_XRENDER || ps.o_backend == backend_t.BKEND_XR_GLX_HYBRID

/-- The function `paint_isvalid`; a null `ppaint` is `none`.  The texture test
is compiled only with `CONFIG_OPENGL`. -/
def paint_isvalid (ps : session_t) (ppaint : Option paint_t) : Bool :=
  match ppaint with
  | none => false
  | some p =>
    if bkend_use_xrender ps && p.pict == XCB_NONE then false
    else if ps.config_opengl && ps.o_backend == backend_t.BKEND_GLX
        && !glx_tex_binded p.ptex XCB_NONE then false
    else true

/-! ## Requests -/

/-- The call sites of `paint_region` in `paint_one`: the single call of an
opaque frame, the four `COMP_BDR` margins, and the body. -/
inductive site_t
  | whole
  | top
  | bottom
  | left
  | right
  | body
  deriving DecidableEq, Repr

/-- The arguments `x`, `y`, `wid`, `hei`, `opacity` and `pict` of one call of
`paint_region`, with the call site; `ps`, `w` and `reg_paint` are those of the
enclosing `paint_one`. -/
structure region_call_t where
  site : site_t
  x : Int
  y : Int
  wid : Int
  hei : Int
  opacity : ℚ
  pict : Nat
  deriving DecidableEq

/-- The Render operators the painting code composites with. -/
inductive pict_op_t
  | SRC
  | OVER
  | DIFFERENCE
  | IN_REVERSE
  deriving DecidableEq, Repr

/-- What the painting code asks of the X server, of GLX and of the log. -/
inductive request_t
  | glx_mark (id : Nat) (start : Bool)
  | name_window_pixmap (window pixmap : Nat)
  | create_picture (pictfmt drawable : Nat)
  | create_picture_with_pictfmt (wid hei : Int) (pictfmt : Nat)
  | log_error (msg : String)
  | composite (op : pict_op_t) (src mask dst : Nat) (wid hei : Int)
  | paint_region (c : region_call_t)
  | render_free_picture (p : Nat)
  | free_pixmap (p : Nat)
  | free_texture (tex : glx_texture_t)
  | fill_rectangles (dst : Nat) (alpha : Int) (x y wid hei : Int)
  | glx_dim_dst (x y wid hei : Int) (dim_opacity : ℚ)
  | assert_failure
  deriving DecidableEq

/-- The `paint_region` calls among a list of requests, in order. -/
def region_calls (reqs : List request_t) : List region_call_t :=
  reqs.filterMap fun q =>
    match q with
    | request_t.paint_region c => some c
    | _ => none

/-- The pixel `(px, py)` lies in the rectangle a `paint_region` call paints
(window coordinates). -/
def region_call_t.covers (c : region_call_t) (px py : Int) : Prop :=
  c.x ≤ px ∧ px < c.x + c.wid ∧ c.y ≤ py ∧ py < c.y + c.hei

instance (c : region_call_t) (px py : Int) : Decidable (c.covers px py) := by
  unfold region_call_t.covers
  infer_instance

/-! ## Freeing a paint binding -/

/-- The function `free_picture`: the picture handle it leaves and the request
it sent. -/
def free_picture (p : Nat) : Nat × List request_t :=
  if p != XCB_NONE then (XCB_NONE, [request_t.render_free_picture p]) else (p, [])

/-- Modelled from the spec: `free_paint_glx` is declared in opengl.h, which is
not among the sources.  Freeing releases what is held and resets the field to
empty: a texture, when there is one, is freed and `ptex` becomes null. -/
def free_paint_glx (ppaint : paint_t) : paint_t × List request_t :=
  match ppaint.ptex with
  | none => (ppaint, [])
  | some tex => ({ ppaint with ptex := none }, [request_t.free_texture tex])

/-- The function `free_paint`: the binding it leaves and the requests it sent. -/
def free_paint (ps : session_t) (ppaint : paint_t) : paint_t × List request_t :=
  let glx := if ps.config_opengl then free_paint_glx ppaint else (ppaint, [])
  let pic := free_picture glx.1.pict
  let pix := if glx.1.pixmap != XCB_NONE then [request_t.free_pixmap glx.1.pixmap] else []
  ({ glx.1 with pict := pic.1, pixmap := XCB_NONE }, glx.2 ++ pic.2 ++ pix)

/-! ## Painting one window -/

/-- What the X server and GLX answer during one `paint_one`: the identifier
`xcb_generate_id` hands out, the picture
`x_create_picture_with_pictfmt_and_pixmap` creates, the result of
`glx_bind_pixmap` with the texture it leaves, and the picture
`x_create_picture_with_pictfmt` creates for colour inversion (`XCB_NONE` when a
creation fails). -/
structure paint_one_reply_t where
  generated_id : Nat
  created_pict : Nat
  bind_ok : Bool
  bound_tex : Option glx_texture_t
  inverted_pict : Nat

/-- The function `paint_bind_tex` (both variants of the build): its result and
the binding it leaves. -/
def paint_bind_tex (ps : session_t) (ppaint : paint_t) (force : Bool)
    (bind_ok : Bool) (bound_tex : Option glx_texture_t) : Bool × paint_t :=
  if ps.config_opengl then
    if ppaint.pixmap == XCB_NONE then (false, ppaint)
    else if force || !glx_tex_binded ppaint.ptex ppaint.pixmap then
      (bind_ok, { ppaint with ptex := bound_tex })
    else (true, ppaint)
  else (true, ppaint)

/-- The `do ... while (0)` block of `paint_one` that paints a window whose frame
opacity is not 1: the `paint_region` calls it makes for a `wid` x `hei` window
with frame extents `t`, `l`, `b`, `r`.  Each `break` ends the list. -/
def paint_one_frame (wid hei t l b r : Int) (frame_opacity dopacity : ℚ) (pict : Nat) :
    List region_call_t :=
  let COMP_BDR := fun (s : site_t) (cx cy cwid chei : Int) =>
    region_call_t.mk s cx cy cwid chei (frame_opacity * dopacity) pict
  let body_height := hei
  let ctop := min_i body_height t
  let top_calls := if ctop > 0 then [COMP_BDR site_t.top 0 0 wid ctop] else []
  let body_height := body_height - ctop
  if body_height ≤ 0 then top_calls
  else
    let cbot := min_i body_height b
    let bottom_calls := if cbot > 0 then [COMP_BDR site_t.bottom 0 (hei - cbot) wid cbot] else []
    let body_height := body_height - cbot
    if body_height ≤ 0 then top_calls ++ bottom_calls
    else
      let body_width := wid
      let cleft := min_i body_width l
      let left_calls := if cleft > 0 then [COMP_BDR site_t.left 0 ctop cleft body_height] else []
      let body_width := body_width - cleft
      if body_width ≤ 0 then top_calls ++ bottom_calls ++ left_calls
      else
        let cright := min_i body_width r
        let right_calls :=
          if cright > 0 then [COMP_BDR site_t.right (wid - cright) ctop cright body_height]
          else []
        let body_width := body_width - cright
        if body_width ≤ 0 then top_calls ++ bottom_calls ++ left_calls ++ right_calls
        else
          top_calls ++ bottom_calls ++ left_calls ++ right_calls
            ++ [region_call_t.mk site_t.body cleft ctop body_width body_height dopacity pict]

/-- The `paint_region` calls of `paint_one` once the binding is valid: one call
when `frame_opacity == 1`, the margin split otherwise. -/
def paint_one_regions (w : win) (pict : Nat) : List region_call_t :=
  let wid := w.widthb
  let hei := w.heightb
  let dopacity := w.opacity_percent
  if w.frame_opacity = 1 then
    [region_call_t.mk site_t.whole 0 0 wid hei dopacity pict]
  else
    let extents := w.frame_extents
    paint_one_frame wid hei (to_int extents.top) (to_int extents.left)
      (to_int extents.bottom) (to_int extents.right) w.frame_opacity dopacity pict

/-- The colour inversion of `paint_one`: the picture to paint from and the
requests that build it. -/
def paint_one_invert (ps : session_t) (w : win) (pict newpict : Nat) : Nat × List request_t :=
  if bkend_use_xrender ps && w.invert_color then
    let create := request_t.create_picture_with_pictfmt w.widthb w.heightb w.pictfmt
    if newpict != XCB_NONE then
      (newpict,
        [create,
         request_t.composite pict_op_t.SRC pict XCB_NONE newpict w.widthb w.heightb,
         request_t.composite pict_op_t.DIFFERENCE ps.white_picture XCB_NONE newpict
           w.widthb w.heightb]
        ++ (if w.has_alpha then
              [request_t.composite pict_op_t.IN_REVERSE pict XCB_NONE newpict w.widthb w.heightb]
            else []))
    else (pict, [create])
  else (pict, [])

/-- The dimming of `paint_one`. -/
def paint_one_dim (ps : session_t) (w : win) : List request_t :=
  if w.dim then
    let dim_opacity :=
      if !ps.o_inactive_dim_fixed then ps.o_inactive_dim * w.opacity_percent
      else ps.o_inactive_dim
    match ps.o_backend with
    | backend_t.BKEND_XRENDER | backend_t.BKEND_XR_GLX_HYBRID =>
      let cval := to_uint16 (trunc (0xffff * dim_opacity))
      [request_t.fill_rectangles ps.tgt_buffer.pict cval (to_int16 w.g_x) (to_int16 w.g_y)
        (to_uint16 w.widthb) (to_uint16 w.heightb)]
    | backend_t.BKEND_GLX =>
      if ps.config_opengl then
        [request_t.glx_dim_dst w.g_x w.g_y w.widthb w.heightb dim_opacity]
      else [request_t.assert_failure]
  else []

/-- The first part of `paint_one`, up to the validity test: the pixmap is
fetched, the picture built and the texture bound.  It yields the window with
its binding updated and the requests sent. -/
def paint_one_prepare (ps : session_t) (w : win) (reply : paint_one_reply_t) :
    win × List request_t :=
  -- Fetch Pixmap
  let fetch := w.paint.pixmap == XCB_NONE && ps.has_name_pixmap
  let pixmap := if fetch then reply.generated_id else w.paint.pixmap
  let fetch_reqs := if fetch then [request_t.name_window_pixmap w.id pixmap] else []
  let draw := if pixmap != XCB_NONE then pixmap else w.id
  -- XRender: Build picture
  let build := bkend_use_xrender ps && w.paint.pict == XCB_NONE
  let pict0 := if build then reply.created_pict else w.paint.pict
  let build_reqs := if build then [request_t.create_picture w.pictfmt draw] else []
  -- GLX: Build texture
  let bound := paint_bind_tex ps { w.paint with pixmap := pixmap, pict := pict0 }
    (!ps.o_glx_no_rebind_pixmap && w.pixmap_damaged) reply.bind_ok reply.bound_tex
  let bind_reqs :=
    if !bound.1 then [request_t.log_error "Failed to bind texture for window."] else []
  ({ w with paint := bound.2, pixmap_damaged := false },
    [request_t.glx_mark w.id true] ++ fetch_reqs ++ build_reqs ++ bind_reqs)

/-- The function `paint_one`: the window it leaves and the requests it sent. -/
def paint_one (ps : session_t) (w : win) (reply : paint_one_reply_t) : win × List request_t :=
  let prep := paint_one_prepare ps w reply
  let w1 := prep.1
  if !paint_isvalid ps (some w1.paint) then
    (w1, prep.2 ++ [request_t.log_error "Window is missing painting data."])
  else
    let inv := paint_one_invert ps w1 w1.paint.pict reply.inverted_pict
    let pict := inv.1
    let paint_reqs := (paint_one_regions w1 pict).map request_t.paint_region
    let free_reqs := if pict != w1.paint.pict then (free_picture pict).2 else []
    (w1, prep.2 ++ inv.2 ++ paint_reqs ++ free_reqs ++ paint_one_dim ps w1
      ++ [request_t.glx_mark w.id false])

/-! ## Convolution kernels -/

/-- Modelled from the spec: the macro `XFIXED_TO_DOUBLE` comes from a header that
is not among the sources.  A kernel weight is a 16.16 fixed-point number: the
integer `value` stands for `value / 65536`. -/
def XFIXED_TO_DOUBLE (value : Int) : ℚ :=
  (value : ℚ) / 65536

/-- Modelled from the spec: the macro `DOUBLE_TO_XFIXED` comes from a header that
is not among the sources.  It scales by 65536 and truncates to the 32-bit
`xcb_render_fixed_t`; a value outside the range of that type has no defined
conversion, which is `none`. -/
def DOUBLE_TO_XFIXED (value : ℚ) : Option Int :=
  let r := trunc (value * 65536)
  if -2147483648 ≤ r ∧ r ≤ 2147483647 then some r else none

/-- The second loop of `normalize_conv_kern`: every weight is scaled by
`factor` and stored back. -/
def normalize_conv_kern_scale (factor : ℚ) : List Int → Option (List Int)
  | [] => some []
  | k :: ks =>
    match DOUBLE_TO_XFIXED (XFIXED_TO_DOUBLE k * factor), normalize_conv_kern_scale factor ks with
    | some v, some vs => some (v :: vs)
    | _, _ => none

/-- The function `normalize_conv_kern` on the array `kern`: the array it leaves.
It reads and writes the first `wid * hei` entries; there is no result when the
array is shorter than that, when the sum is zero (the factor is then not a
number to scale by) or when a scaled weight does not fit its type. -/
def normalize_conv_kern (wid hei : Int) (kern : List Int) : Option (List Int) :=
  let n := (wid * hei).toNat
  if kern.length < n then none
  else
    let sum := (kern.take n).foldl (fun acc k => acc + XFIXED_TO_DOUBLE k) 0
    if sum = 0 then none
    else
      let factor := 1 / sum
      (normalize_conv_kern_scale factor (kern.take n)).map fun head => head ++ kern.drop n

/-! ## Painting all windows -/

/-- Modelled from the spec: `bkend_use_glx` is declared in a header that is not
among the sources.  The accelerated backend and the hybrid backend, which
presents through the accelerated pipeline, use GLX. -/
def bkend_use_glx (ps : session_t) : Bool :=
  ps.o_backend == backend_t.BKEND_GLX || ps.o_backend == backend_t.BKEND_XR_GLX_HYBRID

/-- The rectangle `(x, y, width, height)` as a region; it is what
`pixman_region32_intersect_rect` intersects with. -/
def rect_region (x y width height : Int) : region_t :=
  Finset.Ico x (x + width) ×ˢ Finset.Ico y (y + height)

/-- What `paint_all` calls: requests to the X server and GLX, the log, and the
painting functions of this file.  A window argument is the `id` of the window,
a region argument the region at the time of the call. -/
inductive call_t
  | x_fence_sync (fence : Nat)
  | sync_destroy_fence (fence : Nat)
  | log_error (msg : String)
  | log_fatal (msg : String)
  | exit_process (status : Int)
  | glx_paint_pre (reg : region_t)
  | request (q : request_t)
  | x_create_pixmap (width height : Int)
  | create_picture_with_visual (pixmap : Nat)
  | create_picture_with_pictfmt (width height : Int)
  | x_set_picture_clip_region (pict : Nat) (reg : region_t)
  | glx_set_clip (reg : region_t)
  | assert_failure
  | paint_root (reg : region_t)
  | win_build_shadow (w : Nat)
  | win_paint_shadow (w : Nat) (reg : region_t)
  | win_blur_background (w : Nat) (tgt_buffer : Nat) (reg : region_t)
  | paint_one (w : Nat) (reg : region_t)
  | x_sync
  | gl_finish
  | gl_flush
  | glx_wait_x
  | vsync_wait
  | composite (op : pict_op_t) (src mask dst : Nat) (wid hei : Int)
  | render_free_picture (p : Nat)
  | glx_render (reg : region_t)
  | glx_swap_buffers
  | glx_mark_frame
  | xflush
  | win_check_fade_finished (w : Nat)
  deriving DecidableEq

/-- What the X server and GLX answer during one `paint_all`: the result of
`x_fence_sync`, the pixmap and the picture created for the target buffer, the
result of `win_build_shadow` for each window, the picture created for
`monitor_repaint`, the result of `glx_bind_pixmap` on the target buffer, and the
region `glx_paint_pre` leaves in the region it is handed. -/
structure paint_all_reply_t where
  fence_ok : Bool
  created_pixmap : Nat
  created_pict : Nat
  build_shadow_ok : Nat → Bool
  monitor_pict : Nat
  bind_ok : Bool
  bound_tex : Option glx_texture_t
  glx_paint_pre : region_t → region_t

/-- The session `paint_all` leaves, the calls it made in program order, and
whether it ended the process with `exit(1)`. -/
structure paint_all_result_t where
  ps : session_t
  calls : List call_t
  exited : Bool

/-- The function `set_tgt_clip`. -/
def set_tgt_clip (ps : session_t) (reg : region_t) : List call_t :=
  match ps.o_backend with
  | backend_t.BKEND_XRENDER | backend_t.BKEND_XR_GLX_HYBRID =>
    [call_t.x_set_picture_clip_region ps.tgt_buffer.pict reg]
  | backend_t.BKEND_GLX =>
    if ps.config_opengl then [call_t.glx_set_clip reg] else [call_t.assert_failure]

/-- The region `region` of `paint_all` after its first statements: the screen
when no region is given, the given region cut to the screen otherwise. -/
def paint_all_resolve (ps : session_t) (region : Option region_t) : region_t :=
  match region with
  | none => ps.screen_reg
  | some r => r ∩ ps.screen_reg

/-- The damage region of `paint_all`, the region `region` when painting starts.
On the GLX and hybrid backends `glx_paint_pre` (opengl.h) is handed the
region by pointer, and what it leaves there is the damage. -/
def paint_all_damage (ps : session_t) (region : Option region_t) (reply : paint_all_reply_t) :
    region_t :=
  if ps.config_opengl && bkend_use_glx ps then reply.glx_paint_pre (paint_all_resolve ps region)
  else paint_all_resolve ps region

/-- The region `region_real` of `paint_all` when painting starts.  A null
`region_real` is the pointer `region` itself, and with a null `region` both
point to the screen region, so in these cases it follows what happens to
`region`; the two arguments are taken to be distinct regions otherwise. -/
def paint_all_region_real (ps : session_t) (region region_real : Option region_t)
    (reply : paint_all_reply_t) : region_t :=
  match region, region_real with
  | none, _ => paint_all_damage ps region reply
  | some _, none => paint_all_damage ps region reply
  | some _, some real => real

/-- The call of `glx_paint_pre` in `paint_all`, made on the GLX and hybrid
backends.  With a null `region` the region it is handed is the screen region
of the session itself. -/
def paint_all_pre (ps : session_t) (region : Option region_t) (reply : paint_all_reply_t) :
    session_t × List call_t :=
  if ps.config_opengl && bkend_use_glx ps then
    (match region with
      | none => { ps with screen_reg := reply.glx_paint_pre ps.screen_reg }
      | some _ => ps,
     [call_t.glx_paint_pre (paint_all_resolve ps region)])
  else (ps, [])

/-- The synchronisation on the fence at the start of `paint_all`. -/
def paint_all_fence (ps : session_t) (reply : paint_all_reply_t) : session_t × List call_t :=
  if ps.o_xrender_sync_fence then
    if !reply.fence_ok then
      ({ ps with sync_fence := XCB_NONE, o_xrender_sync_fence := false },
        [call_t.x_fence_sync ps.sync_fence,
         call_t.log_error "x_fence_sync failed, xrender-sync-fence will be disabled from now on.",
         call_t.sync_destroy_fence ps.sync_fence])
    else (ps, [call_t.x_fence_sync ps.sync_fence])
  else (ps, [])

/-- The preparation of the target buffer in `paint_all`: a missing pixmap is
allocated, and the process ends when that fails; the picture is created unless
the backend is GLX. -/
def paint_all_target (ps : session_t) (reply : paint_all_reply_t) : paint_all_result_t :=
  if !paint_isvalid ps (some ps.tgt_buffer) then
    let alloc : paint_all_result_t :=
      if ps.tgt_buffer.pixmap == XCB_NONE then
        let freed := free_paint ps ps.tgt_buffer
        let ps1 := { ps with tgt_buffer := { freed.1 with pixmap := reply.created_pixmap } }
        let calls := freed.2.map call_t.request
          ++ [call_t.x_create_pixmap ps.root_width ps.root_height]
        if reply.created_pixmap == XCB_NONE then
          { ps := ps1
            calls := calls ++
              [call_t.log_fatal "Failed to allocate a screen-sized pixmap forpainting",
               call_t.exit_process 1]
            exited := true }
        else { ps := ps1, calls := calls, exited := false }
      else { ps := ps, calls := [], exited := false }
    if alloc.exited then alloc
    else if alloc.ps.o_backend != backend_t.BKEND_GLX then
      { ps := { alloc.ps with
                tgt_buffer := { alloc.ps.tgt_buffer with pict := reply.created_pict } }
        calls := alloc.calls ++ [call_t.create_picture_with_visual alloc.ps.tgt_buffer.pixmap]
        exited := false }
    else alloc
  else { ps := ps, calls := [], exited := false }

/-- The region a shadow is painted in: `reg_tmp` of the loop of `paint_all` when
it reaches the emptiness test of the shadow. -/
def paint_all_shadow_region (ps : session_t) (region : region_t) (w : win) : region_t :=
  let reg_tmp := region \ w.reg_ignore
  let reg_tmp :=
    if ps.shadow_exclude_reg.Nonempty then reg_tmp \ ps.shadow_exclude_reg else reg_tmp
  let reg_tmp := reg_tmp ∩ rect_region (w.g_x + w.shadow_dx) (w.g_y + w.shadow_dy)
    w.shadow_width w.shadow_height
  let reg_tmp := if !w.full_shadow then reg_tmp \ w.bshape_global else reg_tmp
  if ps.config_xinerama && ps.o_xinerama_shadow_crop && decide (0 ≤ w.xinerama_scr)
      && decide (w.xinerama_scr < ps.xinerama_nscrs) then
    reg_tmp ∩ ps.xinerama_scr_regs.getD w.xinerama_scr.toNat ∅
  else reg_tmp

/-- The region a window is painted in: `reg_tmp` of the loop of `paint_all` when
it reaches the emptiness test of the window. -/
def paint_all_win_region (region : region_t) (w : win) : region_t :=
  (region \ w.reg_ignore) ∩ w.bshape_global

/-- One turn of the loop of `paint_all` over the windows. -/
def paint_all_win (ps : session_t) (region : region_t) (reply : paint_all_reply_t) (w : win) :
    List call_t :=
  let shadow_calls :=
    if w.shadow then
      let build_calls :=
        if w.shadow_paint.pixmap == XCB_NONE then
          [call_t.win_build_shadow w.id]
            ++ (if !reply.build_shadow_ok w.id then [call_t.log_error "build shadow failed"]
                else [])
        else []
      let reg_tmp := paint_all_shadow_region ps region w
      build_calls ++
        (if reg_tmp.Nonempty then set_tgt_clip ps reg_tmp ++ [call_t.win_paint_shadow w.id reg_tmp]
         else [])
    else []
  let reg_tmp := paint_all_win_region region w
  let body_calls :=
    if reg_tmp.Nonempty then
      set_tgt_clip ps reg_tmp
        ++ (if w.blur_background
              && (!w.is_solid || (ps.o_blur_background_frame && decide (w.frame_opacity ≠ 1))) then
              [call_t.win_blur_background w.id ps.tgt_buffer.pict reg_tmp]
            else [])
        ++ [call_t.paint_one w.id reg_tmp]
    else []
  shadow_calls ++ body_calls

/-- The call `glFinish()` or `glFlush()`, as `vsync_use_glfinish` says. -/
def gl_finish_or_flush (ps : session_t) : call_t :=
  if ps.o_vsync_use_glfinish then call_t.gl_finish else call_t.gl_flush

/-- The presentation of the frame by the backend, the `switch` at the end of
`paint_all`. -/
def paint_all_present (ps : session_t) (region_real : region_t) (reply : paint_all_reply_t) :
    session_t × List call_t :=
  match ps.o_backend with
  | backend_t.BKEND_XRENDER =>
    if ps.o_monitor_repaint then
      (ps,
        [call_t.x_set_picture_clip_region ps.tgt_buffer.pict ps.screen_reg,
         call_t.create_picture_with_pictfmt ps.root_width ps.root_height,
         call_t.composite pict_op_t.SRC ps.tgt_buffer.pict XCB_NONE reply.monitor_pict
           ps.root_width ps.root_height,
         call_t.x_set_picture_clip_region reply.monitor_pict region_real,
         call_t.composite pict_op_t.OVER ps.white_picture
           (ps.alpha_picts.getD (ps.max_alpha / 2) XCB_NONE) reply.monitor_pict
           ps.root_width ps.root_height,
         call_t.x_set_picture_clip_region reply.monitor_pict ps.screen_reg,
         call_t.composite pict_op_t.SRC reply.monitor_pict XCB_NONE ps.tgt_picture
           ps.root_width ps.root_height,
         call_t.render_free_picture reply.monitor_pict])
    else
      (ps,
        [call_t.composite pict_op_t.SRC ps.tgt_buffer.pict XCB_NONE ps.tgt_picture
          ps.root_width ps.root_height])
  | backend_t.BKEND_XR_GLX_HYBRID =>
    if ps.config_opengl then
      let bound := paint_bind_tex ps ps.tgt_buffer (!ps.o_glx_no_rebind_pixmap)
        reply.bind_ok reply.bound_tex
      ({ ps with tgt_buffer := bound.2 },
        [call_t.x_sync, gl_finish_or_flush ps, call_t.glx_wait_x]
          ++ (if ps.tgt_buffer.pixmap == XCB_NONE then [call_t.assert_failure] else [])
          ++ [gl_finish_or_flush ps, call_t.glx_wait_x, call_t.glx_render region_real,
              call_t.glx_swap_buffers])
    else (ps, [call_t.assert_failure])
  | backend_t.BKEND_GLX =>
    if ps.config_opengl then (ps, [call_t.glx_swap_buffers]) else (ps, [call_t.assert_failure])

/-- The region the desktop background is painted in, `reg_paint` of `paint_all`:
the damage minus the `reg_ignore` of the bottom window `t`, the damage itself
when there is no window. -/
def paint_all_root_region (damage : region_t) (t : List win) : region_t :=
  match t with
  | w :: _ => damage \ w.reg_ignore
  | [] => damage

/-- The painting part of `paint_all`: the desktop background is painted, then
the loop runs over the windows from the bottom one. -/
def paint_all_windows (ps : session_t) (damage : region_t) (t : List win)
    (reply : paint_all_reply_t) : List call_t :=
  let reg_paint := paint_all_root_region damage t
  set_tgt_clip ps reg_paint ++ [call_t.paint_root reg_paint]
    ++ t.flatMap (paint_all_win ps damage reply)

/-- The end of `paint_all`, after the loop over the windows: the clip is reset,
the frame is synchronised and presented, and the fades are checked. -/
def paint_all_finish (ps : session_t) (real : region_t) (t : List win)
    (reply : paint_all_reply_t) : session_t × List call_t :=
  let sync_calls :=
    if ps.o_vsync then
      [call_t.x_sync]
        ++ (if ps.config_opengl && ps.glx_has_context then
              [gl_finish_or_flush ps, call_t.glx_wait_x]
            else [])
    else []
  let wait_before := if !ps.o_vsync_aggressive then [call_t.vsync_wait] else []
  let present := paint_all_present ps real reply
  let wait_after := if ps.o_vsync_aggressive then [call_t.vsync_wait] else []
  let flush_calls :=
    [call_t.xflush]
      ++ (if ps.config_opengl && ps.glx_has_context then [call_t.gl_flush, call_t.glx_wait_x]
          else [])
  let fade_calls := t.map fun w => call_t.win_check_fade_finished w.id
  (present.1,
    set_tgt_clip ps ps.screen_reg ++ sync_calls ++ wait_before ++ present.2
      ++ [call_t.glx_mark_frame] ++ wait_after ++ flush_calls ++ fade_calls)

/-- The session in which `paint_all` paints: after the fence, `glx_paint_pre` and
the preparation of the target buffer. -/
def paint_all_session (ps : session_t) (region : Option region_t) (reply : paint_all_reply_t) :
    paint_all_result_t :=
  let fence := paint_all_fence ps reply
  let pre := paint_all_pre fence.1 region reply
  let target := paint_all_target pre.1 reply
  { ps := target.ps, calls := fence.2 ++ pre.2 ++ target.calls, exited := target.exited }

/-- The function `paint_all` on the window list `t`, bottom window first (the
list `t`, `t->prev_trans`, ...); a null `region` or `region_real` is `none`. -/
def paint_all (ps : session_t) (region region_real : Option region_t) (t : List win)
    (reply : paint_all_reply_t) : paint_all_result_t :=
  let fence := paint_all_fence ps reply
  let damage := paint_all_damage fence.1 region reply
  let real := paint_all_region_real fence.1 region region_real reply
  let start := paint_all_session ps region reply
  if start.exited then start
  else
    let ps1 := start.ps
    let clip_calls :=
      if ps1.o_backend == backend_t.BKEND_XRENDER then
        [call_t.x_set_picture_clip_region ps1.tgt_picture real]
      else []
    let finish := paint_all_finish ps1 real t reply
    { ps := finish.1
      calls := start.calls ++ clip_calls ++ paint_all_windows ps1 damage t reply ++ finish.2
      exited := false }

/-- The painting calls among the calls of `paint_all`: the desktop background,
the shadows, the background blurs and the windows. -/
def call_t.is_paint (c : call_t) : Bool :=
  match c with
  | call_t.paint_root _ => true
  | call_t.win_paint_shadow _ _ => true
  | call_t.win_blur_background _ _ _ => true
  | call_t.paint_one _ _ => true
  | _ => false

/-- The calls of `paint_all` that put a frame on the screen: a composite, the
draw of the target texture and the swap of the buffers. -/
def call_t.is_present (c : call_t) : Bool :=
  match c with
  | call_t.composite _ _ _ _ _ _ => true
  | call_t.glx_render _ => true
  | call_t.glx_swap_buffers => true
  | _ => false

/-- Whether the Xinerama crop of the shadow applies to a window: the test in
front of the last intersection of the shadow region in `paint_all`. -/
def xinerama_crop_applies (ps : session_t) (w : win) : Bool :=
  ps.config_xinerama && ps.o_xinerama_shadow_crop && decide (0 ≤ w.xinerama_scr)
    && decide (w.xinerama_scr < ps.xinerama_nscrs)

/-- The paintable region of a shadow in the words of the specification: the
damage minus `reg_ignore`, minus the shadow exclusion region, clipped to the
rectangle of the shadow and, unless the window type has `full_shadow`, minus
the bounding shape of the window. -/
def shadow_region_spec (ps : session_t) (damage : region_t) (w : win) : region_t :=
  let clipped := ((damage \ w.reg_ignore) \ ps.shadow_exclude_reg)
    ∩ rect_region (w.g_x + w.shadow_dx) (w.g_y + w.shadow_dy) w.shadow_width w.shadow_height
  if w.full_shadow then clipped else clipped \ w.bshape_global

/-! ## Requests of the drawing functions -/

/-- The standard picture formats `win_build_shadow` asks for. -/
inductive pict_standard_t
  | A_8
  | ARGB_32
  deriving DecidableEq, Repr

/-- The image `make_shadow` builds: its width and height. -/
structure shadow_image_t where
  width : Int
  height : Int
  deriving DecidableEq, Repr

/-- What `render`, `xr_blur_dst`, `win_blur_background` and `win_build_shadow` ask
of the X server, of GLX and of the log.  A request that creates a resource
carries the handle it got, `XCB_NONE` (or no image) when the creation failed. -/
inductive xcb_call_t
  | log_error (msg : String)
  | assert_failure
  | render_composite (op : pict_op_t) (src mask dst : Nat)
      (src_x src_y mask_x mask_y dst_x dst_y wid hei : Int)
  | glx_render (x y dx dy wid hei : Int) (opacity : ℚ) (argb neg : Bool)
  | create_picture_with_pictfmt (wid hei : Int) (result : Nat)
  | set_picture_clip_region (pict : Nat) (reg : region_t)
  | set_picture_filter_convolution (pict : Nat) (nvalues : Int) (values : List Int)
  | set_picture_filter_nearest (pict : Nat)
  | render_free_picture (pict : Nat)
  | glx_blur_dst (x y wid hei : Int) (factor_center : ℚ) (reg : region_t)
  | make_shadow (opacity : ℚ) (width height : Int) (result : Option shadow_image_t)
  | create_pixmap (depth : Nat) (width height : Int) (result : Nat)
  | create_picture_with_standard (standard : pict_standard_t) (pixmap : Nat) (result : Nat)
  | create_gc (gc drawable : Nat)
  | image_put (drawable gc : Nat)
  | free_gc (gc : Nat)
  | image_destroy
  | free_pixmap (pixmap : Nat)
  deriving DecidableEq

/-! ## Compositing with an opacity -/

/-- The function `render`: the requests it sends, and `none` when the lookup
`ps->alpha_picts[alpha_step]` falls outside the table.  The depth counter of
the GLX backend is not part of the model. -/
def render (ps : session_t) (x y dx dy wid hei : Int) (opacity : ℚ) (argb neg : Bool)
    (pict : Nat) : Option (List xcb_call_t) :=
  match ps.o_backend with
  | backend_t.BKEND_XRENDER | backend_t.BKEND_XR_GLX_HYBRID =>
    let alpha_step := trunc (opacity * ps.max_alpha)
    if 0 ≤ alpha_step ∧ alpha_step.toNat < ps.alpha_picts.length then
      let alpha_pict := ps.alpha_picts.getD alpha_step.toNat XCB_NONE
      if alpha_step ≠ 0 then
        let op := if !argb && alpha_pict == XCB_NONE then pict_op_t.SRC else pict_op_t.OVER
        some [xcb_call_t.render_composite op pict alpha_pict ps.tgt_buffer.pict
          x y 0 0 dx dy wid hei]
      else some []
    else none
  | backend_t.BKEND_GLX =>
    if ps.config_opengl then some [xcb_call_t.glx_render x y dx dy wid hei opacity argb neg]
    else some [xcb_call_t.assert_failure]

/-- The function `paint_region` for one call of `paint_one` on the window `w`
(`none` for the root window). -/
def paint_region (ps : session_t) (w : Option win) (c : region_call_t) :
    Option (List xcb_call_t) :=
  let dx := (match w with | some w => w.g_x | none => 0) + c.x
  let dy := (match w with | some w => w.g_y | none => 0) + c.y
  let argb := match w with
    | some w => w.has_alpha || ps.o_force_win_blend
    | none => false
  let neg := match w with
    | some w => w.invert_color
    | none => false
  render ps c.x c.y dx dy c.wid c.hei c.opacity argb neg c.pict

/-- The power `2 ^ e` as a rational. -/
def pow2 (e : Int) : ℚ :=
  if 0 ≤ e then ((2 ^ e.toNat : Nat) : ℚ) else 1 / ((2 ^ (-e).toNat : Nat) : ℚ)

/-- The binary logarithm of a natural number, rounded down, by repeated
halving; `fuel` bounds the number of halvings. -/
def log2_fuel : Nat → Nat → Nat
  | 0, _ => 0
  | fuel + 1, n => if n < 2 then 0 else log2_fuel fuel (n / 2) + 1

/-- The binary exponent of a rational that is not zero: the `e` with
`2 ^ e ≤ |q| < 2 ^ (e + 1)`. -/
def binade (q : ℚ) : Int :=
  let e0 : Int := (log2_fuel q.num.natAbs q.num.natAbs : Int) - (log2_fuel q.den q.den : Int)
  if pow2 e0 ≤ |q| then e0 else e0 - 1

/-- Rounding of a rational to the nearest integer, ties to the even one. -/
def round_half_even (q : ℚ) : Int :=
  let f := ⌊q⌋
  let r := q - f
  if r < 1 / 2 then f
  else if 1 / 2 < r then f + 1
  else if f % 2 = 0 then f else f + 1

/-- The value of type `double` (IEEE 754 binary64) nearest to a rational, ties to
the even significand: 53 significant bits, exponents from -1022 on, which is
what every arithmetic operation on `double` returns for its exact result.
Values beyond the largest `double` do not occur here and are rounded as if the
exponent range had no upper end. -/
def round_double (q : ℚ) : ℚ :=
  if q = 0 then 0
  else
    let e := max (binade q) (-1022)
    let ulp := pow2 (e - 52)
    (round_half_even (q / ulp) : ℚ) * ulp

/-- The centre weight `factor_center` of `win_blur_background` for a window of
the given opacity (`get_opacity_percent(w)`), computed as the C code does, in
`double` arithmetic: the constant `1.1` and the result of every operation are
rounded to the nearest `double`.  The weight is stored in fixed point by
truncation, so that its last bits matter. -/
def blur_factor_center (blur_background_fixed : Bool) (opacity : ℚ) : ℚ :=
  if !blur_background_fixed then
    let pct := round_double
      (1 - round_double (opacity * round_double (1 - round_double (1 / 9))))
    round_double (round_double (pct * 8) / round_double (round_double 1.1 - pct))
  else 1

/-! ## Blurring an area of a buffer -/

/-- The loop of `xr_blur_dst` from the pass `i` on, over the kernels that are
left before the terminating null: the picture `src_pict` names after the loop,
and the requests sent.  A kernel is its array of fixed-point values, header
included. -/
def xr_blur_dst_passes (ps : session_t) (tgt_buffer : Nat) (x y wid hei : Int) :
    Nat → Nat → Nat → List (List Int) → Nat × List xcb_call_t
  | _, src_pict, _, [] => (src_pict, [])
  | i, src_pict, dst_pict, convolution_blur :: rest =>
    let check := if i + 1 < ps.max_blur_pass then [] else [xcb_call_t.assert_failure]
    let kwid := trunc (XFIXED_TO_DOUBLE (convolution_blur.getD 0 0))
    let khei := trunc (XFIXED_TO_DOUBLE (convolution_blur.getD 1 0))
    let rd_from_tgt : Bool := tgt_buffer == src_pict
    let pass := [
      xcb_call_t.set_picture_filter_convolution src_pict (kwid * khei + 2) convolution_blur,
      xcb_call_t.render_composite pict_op_t.SRC src_pict XCB_NONE dst_pict
        (if rd_from_tgt then x else 0) (if rd_from_tgt then y else 0) 0 0
        (if rd_from_tgt then 0 else x) (if rd_from_tgt then 0 else y) wid hei,
      xcb_call_t.set_picture_filter_nearest src_pict]
    let later := xr_blur_dst_passes ps tgt_buffer x y wid hei (i + 1) dst_pict src_pict rest
    (later.1, check ++ pass ++ later.2)

/-- The clip `xr_blur_dst` sets on the intermediate picture when it is handed a
clipping region. -/
def xr_blur_dst_clip (reg_clip : Option region_t) (tmp_picture : Nat) : List xcb_call_t :=
  match reg_clip with
  | some reg => [xcb_call_t.set_picture_clip_region tmp_picture reg]
  | none => []

/-- The function `xr_blur_dst`: its result and the requests it sends.
`blur_kerns` holds the kernels before the terminating null, `reg_clip` is
`none` for a null pointer, and `tmp_picture` is the handle
`x_create_picture_with_pictfmt` returns. -/
def xr_blur_dst (ps : session_t) (tgt_buffer : Nat) (x y wid hei : Int)
    (blur_kerns : List (List Int)) (reg_clip : Option region_t) (tmp_picture : Nat) :
    Bool × List xcb_call_t :=
  let check := if blur_kerns.isEmpty then [xcb_call_t.assert_failure] else []
  let create := [xcb_call_t.create_picture_with_pictfmt wid hei tmp_picture]
  if tmp_picture == XCB_NONE then
    (false, check ++ create ++ [xcb_call_t.log_error "Failed to build intermediate Picture."])
  else
    let clip := xr_blur_dst_clip reg_clip tmp_picture
    let loop := xr_blur_dst_passes ps tgt_buffer x y wid hei 0 tgt_buffer tmp_picture blur_kerns
    let back :=
      if loop.1 != tgt_buffer then
        [xcb_call_t.render_composite pict_op_t.SRC loop.1 XCB_NONE tgt_buffer 0 0 0 0 x y wid hei]
      else []
    (true, check ++ create ++ clip ++ loop.2 ++ back ++ [xcb_call_t.render_free_picture tmp_picture])

/-- The request is an `xcb_render_composite`. -/
def xcb_call_t.is_composite (c : xcb_call_t) : Bool :=
  match c with
  | xcb_call_t.render_composite _ _ _ _ _ _ _ _ _ _ _ _ => true
  | _ => false

/-- The three requests of the blur pass `i` with the kernel `kern`, as the
documentation of `xr_blur_dst` describes them: even passes read the buffer at
`(x, y)` and write the intermediate picture at the origin, odd passes read the
intermediate picture at the origin and write the buffer at `(x, y)`. -/
def blur_pass_spec (tgt_buffer tmp_picture : Nat) (x y wid hei : Int) (i : Nat)
    (kern : List Int) : List xcb_call_t :=
  let nvalues := trunc (XFIXED_TO_DOUBLE (kern.getD 0 0)) *
    trunc (XFIXED_TO_DOUBLE (kern.getD 1 0)) + 2
  if i % 2 = 0 then
    [xcb_call_t.set_picture_filter_convolution tgt_buffer nvalues kern,
     xcb_call_t.render_composite pict_op_t.SRC tgt_buffer XCB_NONE tmp_picture
       x y 0 0 0 0 wid hei,
     xcb_call_t.set_picture_filter_nearest tgt_buffer]
  else
    [xcb_call_t.set_picture_filter_convolution tmp_picture nvalues kern,
     xcb_call_t.render_composite pict_op_t.SRC tmp_picture XCB_NONE tgt_buffer
       0 0 0 0 x y wid hei,
     xcb_call_t.set_picture_filter_nearest tmp_picture]

/-! ## Building the shadow of a window -/

/-- What the X server and `make_shadow` answer during one `win_build_shadow`:
the image (`none` for a null pointer), the handles of the 8-bit pixmap, of the
ARGB pixmap and of the pictures over them (`XCB_NONE` when the creation
failed), and the identifier `xcb_generate_id` hands out for the graphics
context. -/
structure shadow_reply_t where
  shadow_image : Option shadow_image_t
  shadow_pixmap : Nat
  shadow_pixmap_argb : Nat
  shadow_picture : Nat
  shadow_picture_argb : Nat
  gc : Nat

/-- The label `shadow_picture_err` of `win_build_shadow`: what is released there,
given the values the local variables hold at the jump. -/
def shadow_picture_err (shadow_image : Option shadow_image_t)
    (shadow_pixmap shadow_pixmap_argb shadow_picture shadow_picture_argb gc : Nat) :
    List xcb_call_t :=
  (if shadow_image.isSome then [xcb_call_t.image_destroy] else []) ++
  (if shadow_pixmap != XCB_NONE then [xcb_call_t.free_pixmap shadow_pixmap] else []) ++
  (if shadow_pixmap_argb != XCB_NONE then [xcb_call_t.free_pixmap shadow_pixmap_argb] else []) ++
  (if shadow_picture != XCB_NONE then [xcb_call_t.render_free_picture shadow_picture] else []) ++
  (if shadow_picture_argb != XCB_NONE then
    [xcb_call_t.render_free_picture shadow_picture_argb] else []) ++
  (if gc != XCB_NONE then [xcb_call_t.free_gc gc] else [])

/-- The function `win_build_shadow`: its result, the window it leaves and the
requests it sends. -/
def win_build_shadow (ps : session_t) (w : win) (opacity : ℚ) (reply : shadow_reply_t) :
    Bool × win × List xcb_call_t :=
  let width := w.widthb
  let height := w.heightb
  match reply.shadow_image with
  | none =>
    (false, w, [xcb_call_t.make_shadow opacity width height none,
      xcb_call_t.log_error "failed to make shadow"])
  | some shadow_image =>
    let pixmaps := [
      xcb_call_t.make_shadow opacity width height (some shadow_image),
      xcb_call_t.create_pixmap 8 shadow_image.width shadow_image.height reply.shadow_pixmap,
      xcb_call_t.create_pixmap 32 shadow_image.width shadow_image.height
        reply.shadow_pixmap_argb]
    if reply.shadow_pixmap == XCB_NONE || reply.shadow_pixmap_argb == XCB_NONE then
      (false, w, pixmaps ++ [xcb_call_t.log_error "failed to create shadow pixmaps"] ++
        shadow_picture_err (some shadow_image) reply.shadow_pixmap reply.shadow_pixmap_argb
          XCB_NONE XCB_NONE XCB_NONE)
    else
      let pictures := [
        xcb_call_t.create_picture_with_standard pict_standard_t.A_8 reply.shadow_pixmap
          reply.shadow_picture,
        xcb_call_t.create_picture_with_standard pict_standard_t.ARGB_32
          reply.shadow_pixmap_argb reply.shadow_picture_argb]
      if reply.shadow_picture == XCB_NONE || reply.shadow_picture_argb == XCB_NONE then
        (false, w, pixmaps ++ pictures ++
          shadow_picture_err (some shadow_image) reply.shadow_pixmap reply.shadow_pixmap_argb
            reply.shadow_picture reply.shadow_picture_argb XCB_NONE)
      else
        let draw := [
          xcb_call_t.create_gc reply.gc reply.shadow_pixmap,
          xcb_call_t.image_put reply.shadow_pixmap reply.gc,
          xcb_call_t.render_composite pict_op_t.SRC ps.cshadow_picture reply.shadow_picture
            reply.shadow_picture_argb 0 0 0 0 0 0 shadow_image.width shadow_image.height]
        let check_pixmap :=
          if w.shadow_paint.pixmap != XCB_NONE then [xcb_call_t.assert_failure] else []
        let check_pict :=
          if w.shadow_paint.pict != XCB_NONE then [xcb_call_t.assert_failure] else []
        let release := [
          xcb_call_t.free_gc reply.gc,
          xcb_call_t.image_destroy,
          xcb_call_t.free_pixmap reply.shadow_pixmap,
          xcb_call_t.render_free_picture reply.shadow_picture]
        (true,
          { w with shadow_paint :=
              { w.shadow_paint with
                pixmap := reply.shadow_pixmap_argb
                pict := reply.shadow_picture_argb } },
          pixmaps ++ pictures ++ draw ++ check_pixmap ++ check_pict ++ release)

/-- The pixmaps a list of requests created, in order. -/
def created_pixmaps (calls : List xcb_call_t) : List Nat :=
  calls.filterMap fun c =>
    match c with
    | xcb_call_t.create_pixmap _ _ _ result => if result != XCB_NONE then some result else none
    | _ => none

/-- The pixmaps a list of requests freed, in order. -/
def freed_pixmaps (calls : List xcb_call_t) : List Nat :=
  calls.filterMap fun c =>
    match c with
    | xcb_call_t.free_pixmap pixmap => some pixmap
    | _ => none

/-- The pictures a list of requests created, in order. -/
def created_pictures (calls : List xcb_call_t) : List Nat :=
  calls.filterMap fun c =>
    match c with
    | xcb_call_t.create_picture_with_standard _ _ result =>
      if result != XCB_NONE then some result else none
    | xcb_call_t.create_picture_with_pictfmt _ _ result =>
      if result != XCB_NONE then some result else none
    | _ => none

/-- The pictures a list of requests freed, in order. -/
def freed_pictures (calls : List xcb_call_t) : List Nat :=
  calls.filterMap fun c =>
    match c with
    | xcb_call_t.render_free_picture pict => some pict
    | _ => none

/-- The graphics contexts a list of requests created, in order. -/
def created_gcs (calls : List xcb_call_t) : List Nat :=
  calls.filterMap fun c =>
    match c with
    | xcb_call_t.create_gc gc _ => some gc
    | _ => none

/-- The graphics contexts a list of requests freed, in order. -/
def freed_gcs (calls : List xcb_call_t) : List Nat :=
  calls.filterMap fun c =>
    match c with
    | xcb_call_t.free_gc gc => some gc
    | _ => none

/-- The number of shadow images a list of requests built. -/
def created_images (calls : List xcb_call_t) : Nat :=
  (calls.filter fun c =>
    match c with
    | xcb_call_t.make_shadow _ _ _ (some _) => true
    | _ => false).length

/-- The number of shadow images a list of requests destroyed. -/
def destroyed_images (calls : List xcb_call_t) : Nat :=
  (calls.filter fun c => c == xcb_call_t.image_destroy).length

/-- The creation named in the claim failed: the image, a pixmap or a picture
is missing from the answers. -/
def shadow_reply_t.fails (reply : shadow_reply_t) : Bool :=
  reply.shadow_image.isNone || reply.shadow_pixmap == XCB_NONE ||
    reply.shadow_pixmap_argb == XCB_NONE || reply.shadow_picture == XCB_NONE ||
    reply.shadow_picture_argb == XCB_NONE

/-! ## Blurring the background of a window -/

/-- The width `kwid` a blur kernel declares in its header. -/
def kwid (kern : List Int) : Int :=
  trunc (XFIXED_TO_DOUBLE (kern.getD 0 0))

/-- The height `khei` a blur kernel declares in its header. -/
def khei (kern : List Int) : Int :=
  trunc (XFIXED_TO_DOUBLE (kern.getD 1 0))

/-- The index of the centre weight in the array of a kernel, header
included. -/
def blur_kern_center (kern : List Int) : Int :=
  2 + (khei kern).tdiv 2 * kwid kern + (kwid kern).tdiv 2

/-- The body of the loop of `win_blur_background` for one kernel, past the
tests that leave the loop or skip the pass: the source kernel with its centre
weight rewritten and the cached kernel.  `kern_dst` is `none` for a null cache
entry.  There is no result where the C code has no defined behaviour: the
centre weight does not fit its type, an index falls outside an array, or
`normalize_conv_kern` has no result. -/
def blur_kern_adjust (factor_center : ℚ) (kern_src : List Int) (kern_dst : Option (List Int)) :
    Option (List Int × List Int) :=
  let n := kwid kern_src * khei kern_src + 2
  let dst := match kern_dst with
    | some d => d
    | none => List.replicate n.toNat 0
  let center := blur_kern_center kern_src
  match DOUBLE_TO_XFIXED factor_center with
  | none => none
  | some v =>
    if 0 ≤ center ∧ center.toNat < kern_src.length ∧ 0 ≤ n ∧ n.toNat ≤ kern_src.length ∧
        n.toNat ≤ dst.length then
      let src := kern_src.set center.toNat v
      let copied := src.take n.toNat ++ dst.drop n.toNat
      match normalize_conv_kern (kwid kern_src) (khei kern_src) (copied.drop 2) with
      | none => none
      | some weights => some (src, copied.take 2 ++ weights)
    else none

/-- The entry `ps->blur_kerns_cache[i]` the loop reads when the list `cache`
starts at the index `i`: null when the list has run out. -/
def blur_cache_head (cache : List (Option (List Int))) : Option (List Int) :=
  match cache with
  | some d :: _ => some d
  | _ => none

/-- The loop of `win_blur_background` that prepares the kernels, with `fuel`
indices left below `MAX_BLUR_PASS`: the source kernels and the cache it
leaves from the current index on, and the assertions that failed. -/
def blur_kerns_prepare (blur_background_fixed : Bool) (factor_center : ℚ) :
    Nat → List (List Int) → List (Option (List Int)) →
      Option (List (List Int) × List (Option (List Int)) × List xcb_call_t)
  | 0, kerns, cache => some (kerns, cache, [])
  | _ + 1, [], cache =>
    some ([], cache,
      if (blur_cache_head cache).isSome then [xcb_call_t.assert_failure] else [])
  | fuel + 1, kern_src :: kerns, cache =>
    let kern_dst := blur_cache_head cache
    let check :=
      match kern_dst with
      | some d =>
        if kern_src.getD 0 0 = d.getD 0 0 ∧ kern_src.getD 1 0 = d.getD 1 0 then []
        else [xcb_call_t.assert_failure]
      | none => []
    if blur_background_fixed && kern_dst.isSome then
      (blur_kerns_prepare blur_background_fixed factor_center fuel kerns cache.tail).map
        fun later => (kern_src :: later.1, kern_dst :: later.2.1, check ++ later.2.2)
    else
      match blur_kern_adjust factor_center kern_src kern_dst with
      | none => none
      | some (src, dst) =>
        (blur_kerns_prepare blur_background_fixed factor_center fuel kerns cache.tail).map
          fun later => (src :: later.1, some dst :: later.2.1, check ++ later.2.2)

/-- The kernels of a null-terminated array such as `ps->blur_kerns_cache`: the
entries before the first null. -/
def blur_kerns_chain : List (Option (List Int)) → List (List Int)
  | some kern :: rest => kern :: blur_kerns_chain rest
  | _ => []

/-- Modelled from the spec: `pixman_region32_translate` belongs to the pixman
library, which is not among the sources.  It moves every pixel of the region
by `(dx, dy)`. -/
def region_translate (reg : region_t) (dx dy : Int) : region_t :=
  reg.image fun p => (p.1 + dx, p.2 + dy)

/-- The function `win_blur_background`: the session it leaves and the requests
it sends; `tmp_picture` is the handle the X server returns for the
intermediate picture of `xr_blur_dst`.  There is no result where preparing a
kernel has none. -/
def win_blur_background (ps : session_t) (w : win) (tgt_buffer : Nat) (reg_paint : region_t)
    (tmp_picture : Nat) : Option (session_t × List xcb_call_t) :=
  let x := w.g_x
  let y := w.g_y
  let wid := w.widthb
  let hei := w.heightb
  let factor_center := blur_factor_center ps.o_blur_background_fixed w.opacity_percent
  match ps.o_backend with
  | backend_t.BKEND_XRENDER | backend_t.BKEND_XR_GLX_HYBRID =>
    match blur_kerns_prepare ps.o_blur_background_fixed factor_center ps.max_blur_pass
        ps.o_blur_kerns ps.blur_kerns_cache with
    | none => none
    | some (kerns, cache, checks) =>
      let ps1 := { ps with
        o_blur_kerns := kerns
        blur_kerns_cache := cache }
      let reg_blur := w.bshape_global
      let reg_blur :=
        if w.is_solid then reg_blur \ region_translate w.reg_noframe_local w.g_x w.g_y
        else reg_blur
      let reg_blur := region_translate reg_blur (-x) (-y)
      some (ps1, checks ++
        (xr_blur_dst ps1 tgt_buffer x y wid hei (blur_kerns_chain ps1.blur_kerns_cache)
          (some reg_blur) tmp_picture).2)
  | backend_t.BKEND_GLX =>
    if ps.config_opengl then
      some (ps, [xcb_call_t.glx_blur_dst x y wid hei factor_center reg_paint])
    else some (ps, [xcb_call_t.assert_failure])

/-- The background blurs among the calls of `paint_all`. -/
def call_t.is_blur (c : call_t) : Bool :=
  match c with
  | call_t.win_blur_background _ _ _ => true
  | _ => false

/-! ## Sample values -/

/-- An empty paint binding. -/
def empty_paint : paint_t :=
  { pixmap := XCB_NONE, pict := XCB_NONE, ptex := none }

/-- A session on the XRender backend with a 4 x 4 screen. -/
def sample_session : session_t :=
  { config_opengl := false
    config_xinerama := false
    o_backend := backend_t.BKEND_XRENDER
    has_name_pixmap := true
    o_glx_no_rebind_pixmap := false
    o_force_win_blend := false
    o_inactive_dim := 0
    o_inactive_dim_fixed := false
    o_blur_background_frame := false
    o_blur_background_fixed := false
    o_xinerama_shadow_crop := false
    o_xrender_sync_fence := false
    o_vsync := false
    o_vsync_aggressive := false
    o_vsync_use_glfinish := false
    o_monitor_repaint := false
    glx_has_context := false
    sync_fence := XCB_NONE
    max_alpha := 255
    alpha_picts := []
    max_blur_pass := 6
    o_blur_kerns := []
    blur_kerns_cache := []
    white_picture := 7
    cshadow_picture := 6
    tgt_picture := 8
    tgt_buffer := { pixmap := 20, pict := 21, ptex := none }
    root_tile_paint := { pixmap := 22, pict := 23, ptex := none }
    root_width := 4
    root_height := 4
    screen_reg := Finset.Ico (0 : Int) 4 ×ˢ Finset.Ico (0 : Int) 4
    shadow_exclude_reg := ∅
    xinerama_nscrs := 0
    xinerama_scr_regs := [] }

/-- A 10 x 10 window with a transparent frame whose top and bottom extents,
3 and 20, exceed its height. -/
def sample_win : win :=
  { id := 1
    g_x := 0
    g_y := 0
    widthb := 10
    heightb := 10
    pictfmt := 0
    paint := empty_paint
    pixmap_damaged := false
    invert_color := false
    has_alpha := false
    is_solid := true
    dim := false
    opacity_percent := 1
    frame_opacity := 0
    frame_extents := { top := 3, left := 2, bottom := 20, right := 2 }
    blur_background := false
    shadow := false
    shadow_dx := 0
    shadow_dy := 0
    shadow_width := 0
    shadow_height := 0
    shadow_opacity := 0
    shadow_paint := empty_paint
    full_shadow := false
    xinerama_scr := 0
    reg_ignore := ∅
    bshape_global := ∅
    reg_noframe_local := ∅ }

/-- Answers of an X server that creates every resource asked for. -/
def sample_reply : paint_one_reply_t :=
  { generated_id := 30
    created_pict := 31
    bind_ok := true
    bound_tex := none
    inverted_pict := 32 }

/-- A binding with a picture and no pixmap. -/
def sample_picture_paint : paint_t :=
  { pixmap := XCB_NONE, pict := 5, ptex := none }

/-- A binding with a bound texture and no picture. -/
def sample_texture_paint : paint_t :=
  { pixmap := XCB_NONE, pict := XCB_NONE, ptex := some { texture := 1, glpixmap := 2, pixmap := 3 } }

/-- The sample session on the GLX backend, built with `CONFIG_OPENGL`. -/
def sample_glx_session : session_t :=
  { sample_session with config_opengl := true, o_backend := backend_t.BKEND_GLX }

/-- Answers of an X server that grants every request of `paint_all`; GLX is not
in use. -/
def sample_paint_all_reply : paint_all_reply_t :=
  { fence_ok := true
    created_pixmap := 40
    created_pict := 41
    build_shadow_ok := fun _ => true
    monitor_pict := 42
    bind_ok := true
    bound_tex := none
    glx_paint_pre := fun r => r }

/-- A 2 x 2 window at (1, 1) that casts a 4 x 4 shadow from (0, 0) and is partly
hidden by the window above it. -/
def sample_bottom_win : win :=
  { sample_win with
    id := 1
    shadow := true
    shadow_dx := -1
    shadow_dy := -1
    shadow_width := 4
    shadow_height := 4
    widthb := 2
    heightb := 2
    g_x := 1
    g_y := 1
    bshape_global := rect_region 1 1 2 2
    reg_ignore := rect_region 2 2 2 2 }

/-- A translucent 2 x 2 window at (2, 2) that asks for background blur. -/
def sample_top_win : win :=
  { sample_win with
    id := 2
    widthb := 2
    heightb := 2
    g_x := 2
    g_y := 2
    blur_background := true
    is_solid := false
    bshape_global := rect_region 2 2 2 2
    reg_ignore := ∅ }

/-- A chain of two 3x3 kernels (headers only matter to the requests). -/
def sample_blur_kerns : List (List Int) :=
  [[196608, 196608, 65536], [65536, 65536, 65536]]

/-- Answers like `sample_paint_all_reply`, but of a `glx_paint_pre` that adds
the pixel (100, 100) to the region it is handed. -/
def sample_widening_reply : paint_all_reply_t :=
  { sample_paint_all_reply with glx_paint_pre := fun r => r ∪ rect_region 100 100 1 1 }

/-- The sample session with the blur of translucent frames switched on. -/
def sample_frame_blur_session : session_t :=
  { sample_session with o_blur_background_frame := true }

/-- A solid 2 x 2 window at (2, 2) with a transparent frame that does not ask for
background blur. -/
def sample_plain_win : win :=
  { sample_top_win with
    blur_background := false
    is_solid := true }

/-- A session whose target buffer has not been allocated yet. -/
def sample_unallocated_session : session_t :=
  { sample_session with tgt_buffer := empty_paint }

/-- Answers of an X server that cannot allocate the pixmap of the target
buffer. -/
def sample_failing_reply : paint_all_reply_t :=
  { sample_paint_all_reply with created_pixmap := XCB_NONE }

/-! ## Properties -/

theorem region_calls_append (a b : List request_t) :
    region_calls (a ++ b) = region_calls a ++ region_calls b := by
  simp [region_calls, List.filterMap_append]

theorem region_calls_map (cs : List region_call_t) :
    region_calls (cs.map request_t.paint_region) = cs := by
  induction cs with
  | nil => rfl
  | cons c cs ih =>
    simp only [region_calls, List.map_cons, List.filterMap_cons] at ih ⊢
    rw [ih]

theorem region_calls_invert (ps : session_t) (w : win) (pict newpict : Nat) :
    region_calls (paint_one_invert ps w pict newpict).2 = [] := by
  unfold paint_one_invert
  split_ifs <;> simp [region_calls]

theorem region_calls_dim (ps : session_t) (w : win) :
    region_calls (paint_one_dim ps w) = [] := by
  unfold paint_one_dim
  split_ifs <;> try rfl
  all_goals (cases ps.o_backend <;> simp [region_calls])

theorem region_calls_free (p : Nat) : region_calls (free_picture p).2 = [] := by
  unfold free_picture
  split_ifs <;> simp [region_calls]

theorem region_calls_prepare (ps : session_t) (w : win) (reply : paint_one_reply_t) :
    region_calls (paint_one_prepare ps w reply).2 = [] := by
  unfold paint_one_prepare
  simp only [region_calls_append]
  split_ifs <;> simp [region_calls]

theorem paint_one_fst (ps : session_t) (w : win) (reply : paint_one_reply_t) :
    (paint_one ps w reply).1 = (paint_one_prepare ps w reply).1 := by
  unfold paint_one
  simp only []
  split_ifs <;> rfl

/-- The `paint_region` calls of `paint_one`: none when the binding it prepared is
not valid, those of `paint_one_regions` otherwise. -/
theorem region_calls_paint_one (ps : session_t) (w : win) (reply : paint_one_reply_t) :
    region_calls (paint_one ps w reply).2 =
      if paint_isvalid ps (some (paint_one ps w reply).1.paint) then
        paint_one_regions (paint_one ps w reply).1
          (paint_one_invert ps (paint_one ps w reply).1 (paint_one ps w reply).1.paint.pict
            reply.inverted_pict).1
      else [] := by
  rw [paint_one_fst]
  unfold paint_one
  by_cases hv : paint_isvalid ps (some (paint_one_prepare ps w reply).1.paint) = true
  · simp only [hv, Bool.not_true, Bool.false_eq_true, if_false, if_true, region_calls_append,
      region_calls_map, region_calls_invert, region_calls_dim, region_calls_prepare]
    split_ifs
    · rw [region_calls_free]
      simp [region_calls]
    · simp [region_calls]
  · simp only [hv, Bool.not_false, Bool.not_eq_true, if_false, if_true, region_calls_append,
      region_calls_prepare]
    simp [region_calls, hv]

/-! ### The margin split of `paint_one` -/

theorem min_i_spec (a b : Int) :
    (min_i a b = a ∧ a < b) ∨ (min_i a b = b ∧ b ≤ a) := by
  unfold min_i
  split_ifs <;> omega

/-- Where each call site of the margin split paints. -/
theorem paint_one_frame_sites (wid hei t l b r : Int) (fo dop : ℚ) (pict : Nat)
    (c : region_call_t) (hc : c ∈ paint_one_frame wid hei t l b r fo dop pict) :
    c.site ≠ site_t.whole ∧
    (c.site = site_t.top → c.y = 0 ∧ c.hei = min_i hei t ∧ 0 < c.hei) ∧
    (c.site = site_t.bottom →
      c.y = hei - min_i (hei - min_i hei t) b ∧ c.hei = min_i (hei - min_i hei t) b ∧ 0 < c.hei) ∧
    (c.site = site_t.left ∨ c.site = site_t.right ∨ c.site = site_t.body →
      c.y = min_i hei t ∧ c.hei = hei - min_i hei t - min_i (hei - min_i hei t) b ∧ 0 < c.hei) := by
  revert c
  unfold paint_one_frame
  simp only []
  have h1 := min_i_spec hei t
  have h2 := min_i_spec (hei - min_i hei t) b
  have h3 := min_i_spec wid l
  have h4 := min_i_spec (wid - min_i wid l) r
  generalize min_i (wid - min_i wid l) r = cright at *
  generalize min_i wid l = cleft at *
  generalize min_i (hei - min_i hei t) b = cbot at *
  generalize min_i hei t = ctop at *
  split_ifs <;> simp <;> omega

/-- The margin split makes at most five calls. -/
theorem paint_one_frame_length (wid hei t l b r : Int) (fo dop : ℚ) (pict : Nat) :
    (paint_one_frame wid hei t l b r fo dop pict).length ≤ 5 := by
  unfold paint_one_frame
  simp only []
  split_ifs <;> simp

/-- Every rectangle of the margin split of a window of positive width is not
empty and lies inside the window. -/
theorem paint_one_frame_inside (wid hei t l b r : Int) (fo dop : ℚ) (pict : Nat)
    (hw : 0 < wid) (ht : 0 ≤ t) (hl : 0 ≤ l) (hb : 0 ≤ b) (hr : 0 ≤ r) (c : region_call_t)
    (hc : c ∈ paint_one_frame wid hei t l b r fo dop pict) :
    0 < c.wid ∧ 0 < c.hei ∧ 0 ≤ c.x ∧ c.x + c.wid ≤ wid ∧ 0 ≤ c.y ∧ c.y + c.hei ≤ hei := by
  revert c
  unfold paint_one_frame
  simp only []
  have h1 := min_i_spec hei t
  have h2 := min_i_spec (hei - min_i hei t) b
  have h3 := min_i_spec wid l
  have h4 := min_i_spec (wid - min_i wid l) r
  generalize min_i (wid - min_i wid l) r = cright at *
  generalize min_i wid l = cleft at *
  generalize min_i (hei - min_i hei t) b = cbot at *
  generalize min_i hei t = ctop at *
  split_ifs <;> simp <;> omega

/-- The calls of the margin split are, in order, among the five rectangles of
the top, bottom, left and right margins and of the body. -/
theorem paint_one_frame_sublist (wid hei t l b r : Int) (fo dop : ℚ) (pict : Nat) :
    List.Sublist (paint_one_frame wid hei t l b r fo dop pict)
      [region_call_t.mk site_t.top 0 0 wid (min_i hei t) (fo * dop) pict,
       region_call_t.mk site_t.bottom 0 (hei - min_i (hei - min_i hei t) b) wid
         (min_i (hei - min_i hei t) b) (fo * dop) pict,
       region_call_t.mk site_t.left 0 (min_i hei t) (min_i wid l)
         (hei - min_i hei t - min_i (hei - min_i hei t) b) (fo * dop) pict,
       region_call_t.mk site_t.right (wid - min_i (wid - min_i wid l) r) (min_i hei t)
         (min_i (wid - min_i wid l) r)
         (hei - min_i hei t - min_i (hei - min_i hei t) b) (fo * dop) pict,
       region_call_t.mk site_t.body (min_i wid l) (min_i hei t)
         (wid - min_i wid l - min_i (wid - min_i wid l) r)
         (hei - min_i hei t - min_i (hei - min_i hei t) b) dop pict] := by
  unfold paint_one_frame
  simp only []
  generalize min_i (wid - min_i wid l) r = cright
  generalize min_i wid l = cleft
  generalize min_i (hei - min_i hei t) b = cbot
  generalize min_i hei t = ctop
  split_ifs <;> (try simp only [List.nil_append, List.append_nil, List.cons_append]) <;>
    repeat (first
      | exact List.Sublist.refl _
      | apply List.Sublist.cons₂
      | apply List.Sublist.cons)

/-- The five rectangles of the margin split share no pixel. -/
theorem frame_rects_disjoint (wid hei ctop cbot cleft cright : Int) (o1 o2 : ℚ) (pict : Nat)
    (h2 : cbot ≤ hei - ctop) (h4 : cright ≤ wid - cleft) :
    List.Pairwise (fun c d : region_call_t => ∀ px py : Int, ¬ (c.covers px py ∧ d.covers px py))
      [region_call_t.mk site_t.top 0 0 wid ctop o1 pict,
       region_call_t.mk site_t.bottom 0 (hei - cbot) wid cbot o1 pict,
       region_call_t.mk site_t.left 0 ctop cleft (hei - ctop - cbot) o1 pict,
       region_call_t.mk site_t.right (wid - cright) ctop cright (hei - ctop - cbot) o1 pict,
       region_call_t.mk site_t.body cleft ctop (wid - cleft - cright) (hei - ctop - cbot)
         o2 pict] := by
  simp only [List.pairwise_cons, List.mem_cons, List.mem_singleton, List.not_mem_nil,
    List.Pairwise.nil, and_true, region_call_t.covers, forall_eq_or_imp, forall_eq]
  refine ⟨⟨?_, ?_, ?_, ?_, ?_⟩, ⟨?_, ?_, ?_, ?_⟩, ⟨?_, ?_, ?_⟩, ⟨?_, ?_⟩, ?_⟩ <;>
    first
      | (intro px py; omega)
      | (intro a h; exact h.elim)

/-- No pixel is painted by two calls of the margin split. -/
theorem paint_one_frame_disjoint (wid hei t l b r : Int) (fo dop : ℚ) (pict : Nat) :
    (paint_one_frame wid hei t l b r fo dop pict).Pairwise
      (fun c d => ∀ px py : Int, ¬ (c.covers px py ∧ d.covers px py)) := by
  refine List.Pairwise.sublist (paint_one_frame_sublist wid hei t l b r fo dop pict) ?_
  apply frame_rects_disjoint
  · rcases min_i_spec (hei - min_i hei t) b with h | h <;> omega
  · rcases min_i_spec (wid - min_i wid l) r with h | h <;> omega

/-- The calls of the margin split of a window of positive width and height
cover exactly the window. -/
theorem paint_one_frame_cover (wid hei t l b r : Int) (fo dop : ℚ) (pict : Nat)
    (hw : 0 < wid) (hh : 0 < hei) (ht : 0 ≤ t) (hl : 0 ≤ l) (hb : 0 ≤ b) (hr : 0 ≤ r)
    (px py : Int) :
    (∃ c ∈ paint_one_frame wid hei t l b r fo dop pict, c.covers px py) ↔
      (0 ≤ px ∧ px < wid ∧ 0 ≤ py ∧ py < hei) := by
  unfold paint_one_frame
  simp only []
  have h1 := min_i_spec hei t
  have h2 := min_i_spec (hei - min_i hei t) b
  have h3 := min_i_spec wid l
  have h4 := min_i_spec (wid - min_i wid l) r
  generalize min_i (wid - min_i wid l) r = cright at *
  generalize min_i wid l = cleft at *
  generalize min_i (hei - min_i hei t) b = cbot at *
  generalize min_i hei t = ctop at *
  split_ifs <;> simp [region_call_t.covers] <;> omega

/-! ### The claims on `paint_one` -/

theorem prepare_geometry (ps : session_t) (w : win) (reply : paint_one_reply_t) :
    (paint_one ps w reply).1.widthb = w.widthb ∧ (paint_one ps w reply).1.heightb = w.heightb ∧
    (paint_one ps w reply).1.frame_opacity = w.frame_opacity ∧
    (paint_one ps w reply).1.frame_extents = w.frame_extents ∧
    (paint_one ps w reply).1.opacity_percent = w.opacity_percent := by
  rw [paint_one_fst]
  exact ⟨rfl, rfl, rfl, rfl, rfl⟩

/-- The `paint_region` calls of `paint_one` on a window whose frame opacity is
not 1 are those of the margin split, or none. -/
theorem region_calls_paint_one_frame (ps : session_t) (w : win) (reply : paint_one_reply_t)
    (hfo : w.frame_opacity ≠ 1) :
    ∃ pict, region_calls (paint_one ps w reply).2 =
      if paint_isvalid ps (some (paint_one ps w reply).1.paint) then
        paint_one_frame w.widthb w.heightb (to_int w.frame_extents.top)
          (to_int w.frame_extents.left) (to_int w.frame_extents.bottom)
          (to_int w.frame_extents.right) w.frame_opacity w.opacity_percent pict
      else [] := by
  obtain ⟨h1, h2, h3, h4, h5⟩ := prepare_geometry ps w reply
  refine ⟨(paint_one_invert ps (paint_one ps w reply).1 (paint_one ps w reply).1.paint.pict
    reply.inverted_pict).1, ?_⟩
  rw [region_calls_paint_one]
  unfold paint_one_regions
  simp only [h1, h2, h3, h4, h5, if_neg hfo]

/-- C1: in `paint_one` with `frame_opacity != 1`, for a height `hei >= 0` and
non-negative top and bottom extents `t` and `b`, the clamped margins
`ctop = min_i hei t` and `cbot = min_i (hei - ctop) b` satisfy
`ctop + cbot <= hei`; the top margin is painted at height `ctop`, the bottom
margin at height `cbot`, and the left margin, the right margin and the body
are painted only at vertical offset `ctop` with the positive height
`hei - ctop - cbot`, so not at all when `hei < t + b`. -/
theorem paint_one_margins_sanitized (ps : session_t) (w : win) (reply : paint_one_reply_t)
    (hfo : w.frame_opacity ≠ 1) (_hh : 0 ≤ w.heightb)
    (_ht : 0 ≤ to_int w.frame_extents.top) (hb : 0 ≤ to_int w.frame_extents.bottom) :
    min_i w.heightb (to_int w.frame_extents.top)
        + min_i (w.heightb - min_i w.heightb (to_int w.frame_extents.top))
            (to_int w.frame_extents.bottom) ≤ w.heightb ∧
    (∀ c ∈ region_calls (paint_one ps w reply).2,
      c.site ≠ site_t.whole ∧
      (c.site = site_t.top →
        c.y = 0 ∧ c.hei = min_i w.heightb (to_int w.frame_extents.top)) ∧
      (c.site = site_t.bottom →
        c.y + c.hei = w.heightb ∧
        c.hei = min_i (w.heightb - min_i w.heightb (to_int w.frame_extents.top))
          (to_int w.frame_extents.bottom)) ∧
      (c.site = site_t.left ∨ c.site = site_t.right ∨ c.site = site_t.body →
        c.y = min_i w.heightb (to_int w.frame_extents.top) ∧
        c.hei = w.heightb - min_i w.heightb (to_int w.frame_extents.top)
          - min_i (w.heightb - min_i w.heightb (to_int w.frame_extents.top))
              (to_int w.frame_extents.bottom) ∧
        0 < c.hei)) ∧
    (w.heightb < to_int w.frame_extents.top + to_int w.frame_extents.bottom →
      ∀ c ∈ region_calls (paint_one ps w reply).2,
        c.site = site_t.top ∨ c.site = site_t.bottom) := by
  obtain ⟨pict, hcalls⟩ := region_calls_paint_one_frame ps w reply hfo
  have key : ∀ c ∈ region_calls (paint_one ps w reply).2,
      c ∈ paint_one_frame w.widthb w.heightb (to_int w.frame_extents.top)
          (to_int w.frame_extents.left) (to_int w.frame_extents.bottom)
          (to_int w.frame_extents.right) w.frame_opacity w.opacity_percent pict := by
    intro c hc
    rw [hcalls] at hc
    split_ifs at hc
    · exact hc
    · exact absurd hc (List.not_mem_nil c)
  have m1 := min_i_spec w.heightb (to_int w.frame_extents.top)
  have m2 := min_i_spec (w.heightb - min_i w.heightb (to_int w.frame_extents.top))
    (to_int w.frame_extents.bottom)
  refine ⟨by omega, ?_, ?_⟩
  · intro c hc
    obtain ⟨s0, s1, s2, s3⟩ := paint_one_frame_sites _ _ _ _ _ _ _ _ _ c (key c hc)
    refine ⟨s0, fun h => ⟨(s1 h).1, (s1 h).2.1⟩, fun h => ⟨?_, (s2 h).2.1⟩, s3⟩
    have := s2 h
    omega
  · intro hlt c hc
    obtain ⟨s0, _, _, s3⟩ := paint_one_frame_sites _ _ _ _ _ _ _ _ _ c (key c hc)
    cases hs : c.site
    · exact absurd hs s0
    · exact Or.inl rfl
    · exact Or.inr rfl
    · have := s3 (Or.inl hs)
      omega
    · have := s3 (Or.inr (Or.inl hs))
      omega
    · have := s3 (Or.inr (Or.inr hs))
      omega

/-- Witness of C1: the sample window, 10 high with extents 3 and 20. -/
theorem paint_one_margins_sanitized_witness :
    (sample_win.frame_opacity ≠ 1 ∧ 0 ≤ sample_win.heightb ∧
      0 ≤ to_int sample_win.frame_extents.top ∧ 0 ≤ to_int sample_win.frame_extents.bottom) ∧
    (min_i sample_win.heightb (to_int sample_win.frame_extents.top)
        + min_i (sample_win.heightb - min_i sample_win.heightb (to_int sample_win.frame_extents.top))
            (to_int sample_win.frame_extents.bottom) ≤ sample_win.heightb ∧
    (∀ c ∈ region_calls (paint_one sample_session sample_win sample_reply).2,
      c.site ≠ site_t.whole ∧
      (c.site = site_t.top →
        c.y = 0 ∧ c.hei = min_i sample_win.heightb (to_int sample_win.frame_extents.top)) ∧
      (c.site = site_t.bottom →
        c.y + c.hei = sample_win.heightb ∧
        c.hei = min_i (sample_win.heightb
            - min_i sample_win.heightb (to_int sample_win.frame_extents.top))
          (to_int sample_win.frame_extents.bottom)) ∧
      (c.site = site_t.left ∨ c.site = site_t.right ∨ c.site = site_t.body →
        c.y = min_i sample_win.heightb (to_int sample_win.frame_extents.top) ∧
        c.hei = sample_win.heightb - min_i sample_win.heightb (to_int sample_win.frame_extents.top)
          - min_i (sample_win.heightb
                - min_i sample_win.heightb (to_int sample_win.frame_extents.top))
              (to_int sample_win.frame_extents.bottom) ∧
        0 < c.hei)) ∧
    (sample_win.heightb
        < to_int sample_win.frame_extents.top + to_int sample_win.frame_extents.bottom →
      ∀ c ∈ region_calls (paint_one sample_session sample_win sample_reply).2,
        c.site = site_t.top ∨ c.site = site_t.bottom)) :=
  ⟨⟨by decide, by decide, by decide, by decide⟩,
    paint_one_margins_sanitized sample_session sample_win sample_reply
      (by decide) (by decide) (by decide) (by decide)⟩

/-- C2 (as amended): in `paint_one` with `frame_opacity != 1` and a valid paint
binding, for a window of positive width, any height and non-negative frame
extents, at most five `paint_region` calls are made, every painted rectangle
has positive width and height and lies inside `[0,wid) x [0,hei)`, and no two
painted rectangles share a pixel. -/
theorem paint_one_frame_rects (ps : session_t) (w : win) (reply : paint_one_reply_t)
    (hfo : w.frame_opacity ≠ 1)
    (hv : paint_isvalid ps (some (paint_one ps w reply).1.paint) = true)
    (hw : 0 < w.widthb)
    (ht : 0 ≤ to_int w.frame_extents.top) (hl : 0 ≤ to_int w.frame_extents.left)
    (hb : 0 ≤ to_int w.frame_extents.bottom) (hr : 0 ≤ to_int w.frame_extents.right) :
    (region_calls (paint_one ps w reply).2).length ≤ 5 ∧
    (∀ c ∈ region_calls (paint_one ps w reply).2,
      0 < c.wid ∧ 0 < c.hei ∧ 0 ≤ c.x ∧ c.x + c.wid ≤ w.widthb ∧
      0 ≤ c.y ∧ c.y + c.hei ≤ w.heightb) ∧
    (region_calls (paint_one ps w reply).2).Pairwise
      (fun c d => ∀ px py : Int, ¬ (c.covers px py ∧ d.covers px py)) := by
  obtain ⟨pict, hcalls⟩ := region_calls_paint_one_frame ps w reply hfo
  rw [hcalls, if_pos hv]
  exact ⟨paint_one_frame_length _ _ _ _ _ _ _ _ _,
    fun c hc => paint_one_frame_inside _ _ _ _ _ _ _ _ _ hw ht hl hb hr c hc,
    paint_one_frame_disjoint _ _ _ _ _ _ _ _ _⟩

/-- Witness of C2: the sample window. -/
theorem paint_one_frame_rects_witness :
    (sample_win.frame_opacity ≠ 1 ∧
      paint_isvalid sample_session
        (some (paint_one sample_session sample_win sample_reply).1.paint) = true ∧
      0 < sample_win.widthb ∧
      0 ≤ to_int sample_win.frame_extents.top ∧ 0 ≤ to_int sample_win.frame_extents.left ∧
      0 ≤ to_int sample_win.frame_extents.bottom ∧ 0 ≤ to_int sample_win.frame_extents.right) ∧
    ((region_calls (paint_one sample_session sample_win sample_reply).2).length ≤ 5 ∧
    (∀ c ∈ region_calls (paint_one sample_session sample_win sample_reply).2,
      0 < c.wid ∧ 0 < c.hei ∧ 0 ≤ c.x ∧ c.x + c.wid ≤ sample_win.widthb ∧
      0 ≤ c.y ∧ c.y + c.hei ≤ sample_win.heightb) ∧
    (region_calls (paint_one sample_session sample_win sample_reply).2).Pairwise
      (fun c d => ∀ px py : Int, ¬ (c.covers px py ∧ d.covers px py))) :=
  ⟨⟨by decide, by decide, by decide, by decide, by decide, by decide, by decide⟩,
    paint_one_frame_rects sample_session sample_win sample_reply
      (by decide) (by decide) (by decide) (by decide) (by decide) (by decide) (by decide)⟩

/-- C2 fails as stated: a window of width 0 and height 10 with a top extent of 3,
a translucent frame and a valid binding gets a `paint_region` call for the top
margin whose rectangle has width 0. -/
theorem paint_one_frame_rects_zero_width :
    (({ sample_win with widthb := 0 } : win).frame_opacity ≠ 1 ∧
      paint_isvalid sample_session
        (some (paint_one sample_session { sample_win with widthb := 0 } sample_reply).1.paint)
        = true ∧
      0 ≤ to_int ({ sample_win with widthb := 0 } : win).frame_extents.top ∧
      0 ≤ to_int ({ sample_win with widthb := 0 } : win).frame_extents.left ∧
      0 ≤ to_int ({ sample_win with widthb := 0 } : win).frame_extents.bottom ∧
      0 ≤ to_int ({ sample_win with widthb := 0 } : win).frame_extents.right) ∧
    ¬ (∀ c ∈ region_calls (paint_one sample_session { sample_win with widthb := 0 }
          sample_reply).2, 0 < c.wid ∧ 0 < c.hei) := by
  refine ⟨by decide, ?_⟩
  decide

/-- C3: in `paint_one` with `frame_opacity != 1` and a valid paint binding, for
`wid > 0`, `hei > 0` and non-negative frame extents, the rectangles passed to
`paint_region` cover exactly the pixels of `[0,wid) x [0,hei)`. -/
theorem paint_one_frame_union (ps : session_t) (w : win) (reply : paint_one_reply_t)
    (hfo : w.frame_opacity ≠ 1)
    (hv : paint_isvalid ps (some (paint_one ps w reply).1.paint) = true)
    (hw : 0 < w.widthb) (hh : 0 < w.heightb)
    (ht : 0 ≤ to_int w.frame_extents.top) (hl : 0 ≤ to_int w.frame_extents.left)
    (hb : 0 ≤ to_int w.frame_extents.bottom) (hr : 0 ≤ to_int w.frame_extents.right)
    (px py : Int) :
    (∃ c ∈ region_calls (paint_one ps w reply).2, c.covers px py) ↔
      (0 ≤ px ∧ px < w.widthb ∧ 0 ≤ py ∧ py < w.heightb) := by
  obtain ⟨pict, hcalls⟩ := region_calls_paint_one_frame ps w reply hfo
  rw [hcalls, if_pos hv]
  exact paint_one_frame_cover _ _ _ _ _ _ _ _ _ hw hh ht hl hb hr px py

/-- Witness of C3: the sample window. -/
theorem paint_one_frame_union_witness :
    (sample_win.frame_opacity ≠ 1 ∧
      paint_isvalid sample_session
        (some (paint_one sample_session sample_win sample_reply).1.paint) = true ∧
      0 < sample_win.widthb ∧ 0 < sample_win.heightb ∧
      0 ≤ to_int sample_win.frame_extents.top ∧ 0 ≤ to_int sample_win.frame_extents.left ∧
      0 ≤ to_int sample_win.frame_extents.bottom ∧ 0 ≤ to_int sample_win.frame_extents.right) ∧
    ((∃ c ∈ region_calls (paint_one sample_session sample_win sample_reply).2, c.covers 9 9) ↔
      ((0 : Int) ≤ 9 ∧ 9 < sample_win.widthb ∧ (0 : Int) ≤ 9 ∧ 9 < sample_win.heightb)) :=
  ⟨⟨by decide, by decide, by decide, by decide, by decide, by decide, by decide, by decide⟩,
    paint_one_frame_union sample_session sample_win sample_reply
      (by decide) (by decide) (by decide) (by decide) (by decide) (by decide) (by decide)
      (by decide) 9 9⟩

/-- C4: in `paint_one`, for a window whose paint binding is valid and whose
`frame_opacity` is 1, exactly one `paint_region` call is made, with the
rectangle `(0, 0, widthb, heightb)` and the opacity of the window, whatever
the frame extents are. -/
theorem paint_one_opaque_frame (ps : session_t) (w : win) (reply : paint_one_reply_t)
    (hv : paint_isvalid ps (some (paint_one ps w reply).1.paint) = true)
    (hfo : w.frame_opacity = 1) :
    (region_calls (paint_one ps w reply).2).map
        (fun c => (c.x, c.y, c.wid, c.hei, c.opacity)) =
      [(0, 0, w.widthb, w.heightb, w.opacity_percent)] := by
  obtain ⟨h1, h2, h3, h4, h5⟩ := prepare_geometry ps w reply
  rw [region_calls_paint_one, if_pos hv]
  unfold paint_one_regions
  simp only [h1, h2, h3, h5, if_pos hfo, List.map_cons, List.map_nil]


/-- Witness of C4: the sample window with an opaque frame. -/
theorem paint_one_opaque_frame_witness :
    (paint_isvalid sample_session
        (some (paint_one sample_session { sample_win with frame_opacity := 1 }
          sample_reply).1.paint) = true ∧
      ({ sample_win with frame_opacity := 1 } : win).frame_opacity = 1) ∧
    (region_calls (paint_one sample_session { sample_win with frame_opacity := 1 }
        sample_reply).2).map (fun c => (c.x, c.y, c.wid, c.hei, c.opacity)) =
      [(0, 0, ({ sample_win with frame_opacity := 1 } : win).widthb,
        ({ sample_win with frame_opacity := 1 } : win).heightb,
        ({ sample_win with frame_opacity := 1 } : win).opacity_percent)] :=
  ⟨⟨by decide, by decide⟩,
    paint_one_opaque_frame sample_session { sample_win with frame_opacity := 1 } sample_reply
      (by decide) (by decide)⟩

/-! ### Freeing and validity of a binding -/

/-- C5: `free_paint` is idempotent.  After one call the picture and the pixmap
are both `XCB_NONE`; a second call sends no request at all, so it releases
nothing, and leaves the binding as the first call left it. -/
theorem free_paint_idempotent (ps : session_t) (ppaint : paint_t) :
    (free_paint ps ppaint).1.pict = XCB_NONE ∧ (free_paint ps ppaint).1.pixmap = XCB_NONE ∧
    (free_paint ps (free_paint ps ppaint).1).2 = [] ∧
    (free_paint ps (free_paint ps ppaint).1).1 = (free_paint ps ppaint).1 := by
  obtain ⟨pixmap, pict, ptex⟩ := ppaint
  have hfp : ∀ p : Nat, (free_picture p).1 = XCB_NONE := by
    intro p
    unfold free_picture
    split_ifs with h
    · rfl
    · simpa using h
  have hf0 : free_picture XCB_NONE = (XCB_NONE, []) := by
    simp [free_picture]
  unfold free_paint free_paint_glx
  cases ps.config_opengl <;> cases ptex <;> simp [hfp, hf0]

/-- C6: `paint_isvalid` tells whether the binding carries what the backend
needs.  On the XRender and the hybrid backend it is true exactly for a
non-null binding whose picture is not `XCB_NONE`, whatever its pixmap; on the
GLX backend, which is compiled with `CONFIG_OPENGL`, it is true exactly for a
non-null binding whose texture is bound. -/
theorem paint_isvalid_iff (ps : session_t) (ppaint : Option paint_t) :
    (ps.o_backend = backend_t.BKEND_XRENDER ∨ ps.o_backend = backend_t.BKEND_XR_GLX_HYBRID →
      ((paint_isvalid ps ppaint = true ↔ ∃ p, ppaint = some p ∧ p.pict ≠ XCB_NONE) ∧
        ∀ (p : paint_t) (pixmap : Nat),
          paint_isvalid ps (some { p with pixmap := pixmap }) = paint_isvalid ps (some p))) ∧
    (ps.o_backend = backend_t.BKEND_GLX → ps.config_opengl = true →
      (paint_isvalid ps ppaint = true ↔
        ∃ p, ppaint = some p ∧ glx_tex_binded p.ptex XCB_NONE = true)) := by
  refine ⟨?_, ?_⟩
  · intro hb
    refine ⟨?_, ?_⟩
    · cases ppaint with
      | none => simp [paint_isvalid]
      | some p => rcases hb with hb | hb <;> simp [paint_isvalid, bkend_use_xrender, hb]
    · intro p pixmap
      rcases hb with hb | hb <;> simp [paint_isvalid, bkend_use_xrender, hb]
  · intro hb hc
    cases ppaint with
    | none => simp [paint_isvalid]
    | some p => simp [paint_isvalid, bkend_use_xrender, hb, hc]

/-- Witness of C6: an XRender session with a picture and no pixmap, and a GLX
session with a bound texture. -/
theorem paint_isvalid_iff_witness :
    (paint_isvalid sample_session (some sample_picture_paint) = true ↔
      ∃ p, some sample_picture_paint = some p ∧ p.pict ≠ XCB_NONE) ∧
    (paint_isvalid sample_glx_session (some sample_texture_paint) = true ↔
      ∃ p, some sample_texture_paint = some p ∧ glx_tex_binded p.ptex XCB_NONE = true) :=
  ⟨((paint_isvalid_iff sample_session (some sample_picture_paint)).1 (Or.inl rfl)).1,
    (paint_isvalid_iff sample_glx_session (some sample_texture_paint)).2 rfl rfl⟩

/-! ### Normalisation of a convolution kernel -/

theorem trunc_spec (q : ℚ) : |((trunc q : Int) : ℚ) - q| < 1 ∧ |((trunc q : Int) : ℚ)| ≤ |q| := by
  unfold trunc
  have hd : (0 : Int) < (q.den : Int) := by exact_mod_cast q.den_pos
  have hdq : (0 : ℚ) < (q.den : ℚ) := by exact_mod_cast q.den_pos
  have hq : q = (q.num : ℚ) / (q.den : ℚ) := (Rat.num_div_den q).symm
  have hsplit := Int.tmod_add_tdiv q.num (q.den : Int)
  have hcast : (q.num : ℚ) = ((q.num.tmod q.den : Int) : ℚ) + (q.den : ℚ) * ((q.num.tdiv q.den : Int) : ℚ) := by
    exact_mod_cast hsplit.symm
  have hdiff : ((q.num.tdiv q.den : Int) : ℚ) - q = - ((q.num.tmod q.den : Int) : ℚ) / (q.den : ℚ) := by
    rw [eq_div_iff hdq.ne']
    have : q * (q.den : ℚ) = (q.num : ℚ) := Rat.mul_den_eq_num q
    linear_combination -this - hcast
  rcases le_or_lt 0 q.num with hn | hn
  · have h0 : 0 ≤ q.num.tmod q.den := Int.tmod_nonneg _ hn
    have h1 : q.num.tmod q.den < q.den := Int.tmod_lt_of_pos _ hd
    have h2 : 0 ≤ q.num.tdiv q.den := Int.tdiv_nonneg hn hd.le
    have h0q : (0 : ℚ) ≤ ((q.num.tmod q.den : Int) : ℚ) := by exact_mod_cast h0
    have h1q : ((q.num.tmod q.den : Int) : ℚ) < (q.den : ℚ) := by exact_mod_cast h1
    have h2q : (0 : ℚ) ≤ ((q.num.tdiv q.den : Int) : ℚ) := by exact_mod_cast h2
    have hfrac0 : 0 ≤ ((q.num.tmod q.den : Int) : ℚ) / (q.den : ℚ) := div_nonneg h0q hdq.le
    have hfrac1 : ((q.num.tmod q.den : Int) : ℚ) / (q.den : ℚ) < 1 := (div_lt_one hdq).2 h1q
    have hval : q = ((q.num.tdiv q.den : Int) : ℚ) + ((q.num.tmod q.den : Int) : ℚ) / (q.den : ℚ) := by
      have := hdiff
      rw [neg_div] at this
      linarith
    constructor
    · rw [hdiff, neg_div, abs_neg, abs_of_nonneg hfrac0]
      exact hfrac1
    · rw [abs_of_nonneg h2q, abs_of_nonneg (by linarith)]
      linarith
  · have hn' : 0 ≤ -q.num := by omega
    have hm : q.num.tmod q.den = - ((-q.num).tmod q.den) := by
      have e2 := Int.tmod_add_tdiv (-q.num) (q.den : Int)
      rw [Int.neg_tdiv] at e2
      linear_combination hsplit + e2
    have h0 : 0 ≤ (-q.num).tmod q.den := Int.tmod_nonneg _ hn'
    have h1 : (-q.num).tmod q.den < q.den := Int.tmod_lt_of_pos _ hd
    have h2 : 0 ≤ (-q.num).tdiv q.den := Int.tdiv_nonneg hn' hd.le
    have ht : q.num.tdiv q.den = - ((-q.num).tdiv q.den) := by
      rw [Int.neg_tdiv, neg_neg]
    have h0' : q.num.tmod q.den ≤ 0 := by omega
    have h1' : - (q.den : Int) < q.num.tmod q.den := by omega
    have h2' : q.num.tdiv q.den ≤ 0 := by omega
    have h0q : ((q.num.tmod q.den : Int) : ℚ) ≤ 0 := by exact_mod_cast h0'
    have h1q : - (q.den : ℚ) < ((q.num.tmod q.den : Int) : ℚ) := by exact_mod_cast h1'
    have h2q : ((q.num.tdiv q.den : Int) : ℚ) ≤ 0 := by exact_mod_cast h2'
    have hfrac0 : 0 ≤ - ((q.num.tmod q.den : Int) : ℚ) / (q.den : ℚ) :=
      div_nonneg (by linarith) hdq.le
    have hfrac1 : - ((q.num.tmod q.den : Int) : ℚ) / (q.den : ℚ) < 1 :=
      (div_lt_one hdq).2 (by linarith)
    constructor
    · rw [hdiff, abs_of_nonneg hfrac0]
      exact hfrac1
    · have hqle : q ≤ ((q.num.tdiv q.den : Int) : ℚ) := by linarith
      rw [abs_of_nonpos h2q, abs_of_nonpos (by linarith)]
      linarith

theorem set_tgt_clip_no_paint (ps : session_t) (reg : region_t) :
    (set_tgt_clip ps reg).filter call_t.is_paint = [] := by
  unfold set_tgt_clip
  cases ps.o_backend <;> simp [call_t.is_paint] <;> split_ifs <;> simp [call_t.is_paint]

theorem paint_all_fence_no_paint (ps : session_t) (reply : paint_all_reply_t) :
    (paint_all_fence ps reply).2.filter call_t.is_paint = [] := by
  unfold paint_all_fence
  split_ifs <;> simp [call_t.is_paint]

theorem paint_all_target_no_paint (ps : session_t) (reply : paint_all_reply_t) :
    (paint_all_target ps reply).calls.filter call_t.is_paint = [] := by
  have hreq : ∀ l : List request_t, (l.map call_t.request).filter call_t.is_paint = [] := by
    intro l
    induction l with
    | nil => rfl
    | cons q qs ih => simp [call_t.is_paint]
  unfold paint_all_target
  simp only []
  split_ifs <;> simp [call_t.is_paint, hreq]

theorem paint_all_present_no_paint (ps : session_t) (real : region_t)
    (reply : paint_all_reply_t) :
    (paint_all_present ps real reply).2.filter call_t.is_paint = [] := by
  unfold paint_all_present gl_finish_or_flush
  cases ps.o_backend <;> simp only [] <;> split_ifs <;> simp [call_t.is_paint]

theorem paint_all_finish_no_paint (ps : session_t) (real : region_t) (t : List win)
    (reply : paint_all_reply_t) :
    (paint_all_finish ps real t reply).2.filter call_t.is_paint = [] := by
  have hfade : ∀ l : List win,
      (l.map fun w => call_t.win_check_fade_finished w.id).filter call_t.is_paint = [] := by
    intro l
    induction l with
    | nil => rfl
    | cons q qs ih => simp [call_t.is_paint]
  unfold paint_all_finish gl_finish_or_flush
  simp only [List.filter_append, set_tgt_clip_no_paint, paint_all_present_no_paint, hfade]
  split_ifs <;> simp [call_t.is_paint]

theorem paint_all_pre_no_paint (ps : session_t) (region : Option region_t)
    (reply : paint_all_reply_t) :
    (paint_all_pre ps region reply).2.filter call_t.is_paint = [] := by
  unfold paint_all_pre
  split_ifs <;> simp [call_t.is_paint]

theorem paint_all_session_no_paint (ps : session_t) (region : Option region_t)
    (reply : paint_all_reply_t) :
    (paint_all_session ps region reply).calls.filter call_t.is_paint = [] := by
  unfold paint_all_session
  simp only [List.filter_append, paint_all_fence_no_paint, paint_all_pre_no_paint,
    paint_all_target_no_paint, List.append_nil]

theorem paint_all_damage_fence (ps : session_t) (region : Option region_t)
    (reply : paint_all_reply_t) :
    paint_all_damage (paint_all_fence ps reply).1 region reply
      = paint_all_damage ps region reply := by
  unfold paint_all_damage paint_all_resolve bkend_use_glx paint_all_fence
  split_ifs <;> rfl

theorem paint_all_exited (ps : session_t) (region region_real : Option region_t)
    (t : List win) (reply : paint_all_reply_t) :
    (paint_all ps region region_real t reply).exited =
      (paint_all_session ps region reply).exited := by
  unfold paint_all
  simp only []
  by_cases h : (paint_all_session ps region reply).exited = true
  · rw [if_pos h]
  · rw [if_neg h]
    simp only [Bool.not_eq_true] at h
    exact h.symm

theorem paint_all_calls_exited (ps : session_t) (region region_real : Option region_t)
    (t : List win) (reply : paint_all_reply_t)
    (h : (paint_all_session ps region reply).exited = true) :
    (paint_all ps region region_real t reply).calls =
      (paint_all_session ps region reply).calls := by
  unfold paint_all
  simp only []
  rw [if_pos h]

theorem paint_all_calls_painted (ps : session_t) (region region_real : Option region_t)
    (t : List win) (reply : paint_all_reply_t)
    (h : ¬ (paint_all_session ps region reply).exited = true) :
    (paint_all ps region region_real t reply).calls =
      (paint_all_session ps region reply).calls
        ++ (if (paint_all_session ps region reply).ps.o_backend == backend_t.BKEND_XRENDER then
            [call_t.x_set_picture_clip_region (paint_all_session ps region reply).ps.tgt_picture
              (paint_all_region_real (paint_all_fence ps reply).1 region region_real reply)]
            else [])
        ++ paint_all_windows (paint_all_session ps region reply).ps
            (paint_all_damage ps region reply) t reply
        ++ (paint_all_finish (paint_all_session ps region reply).ps
            (paint_all_region_real (paint_all_fence ps reply).1 region region_real reply)
            t reply).2 := by
  unfold paint_all
  simp only [paint_all_damage_fence]
  rw [if_neg h]

/-- The painting calls of `paint_all`: none when it ends the process, those of
the painting part otherwise. -/
theorem paint_all_paint_calls (ps : session_t) (region region_real : Option region_t)
    (t : List win) (reply : paint_all_reply_t) :
    (paint_all ps region region_real t reply).calls.filter call_t.is_paint =
      if (paint_all ps region region_real t reply).exited then []
      else
        (paint_all_windows (paint_all_session ps region reply).ps
          (paint_all_damage ps region reply) t reply).filter call_t.is_paint := by
  rw [paint_all_exited]
  by_cases h : (paint_all_session ps region reply).exited = true
  · rw [paint_all_calls_exited ps region region_real t reply h, if_pos h,
      paint_all_session_no_paint]
  · rw [paint_all_calls_painted ps region region_real t reply h, if_neg h]
    simp only [List.filter_append, paint_all_session_no_paint, paint_all_finish_no_paint]
    split_ifs <;> simp [call_t.is_paint]

theorem filter_flatMap_paint (f : win → List call_t) (t : List win) :
    (t.flatMap f).filter call_t.is_paint = t.flatMap fun w => (f w).filter call_t.is_paint := by
  induction t with
  | nil => rfl
  | cons w ws ih => simp only [List.flatMap_cons, List.filter_append, ih]

/-- The painting calls of one turn of the loop: the shadow, the blur and the
window, each present or not. -/
theorem paint_all_win_paint_calls (ps : session_t) (damage : region_t)
    (reply : paint_all_reply_t) (w : win) :
    (paint_all_win ps damage reply w).filter call_t.is_paint =
      (if w.shadow = true ∧ (paint_all_shadow_region ps damage w).Nonempty then
          [call_t.win_paint_shadow w.id (paint_all_shadow_region ps damage w)]
        else [])
      ++ (if (paint_all_win_region damage w).Nonempty then
            (if (w.blur_background && (!w.is_solid
                  || (ps.o_blur_background_frame && decide (w.frame_opacity ≠ 1)))) = true then
              [call_t.win_blur_background w.id ps.tgt_buffer.pict (paint_all_win_region damage w)]
            else [])
            ++ [call_t.paint_one w.id (paint_all_win_region damage w)]
          else []) := by
  unfold paint_all_win
  simp only [List.filter_append]
  congr 1
  · by_cases hs : w.shadow = true
    · simp only [hs, if_true, true_and, List.filter_append]
      have hb : List.filter call_t.is_paint
          (if (w.shadow_paint.pixmap == XCB_NONE) = true then
            [call_t.win_build_shadow w.id]
              ++ (if (!reply.build_shadow_ok w.id) = true then
                    [call_t.log_error "build shadow failed"] else [])
          else []) = [] := by
        split_ifs <;> simp [call_t.is_paint]
      rw [hb]
      split_ifs
      · simp [List.filter_append, set_tgt_clip_no_paint, call_t.is_paint]
      · rfl
    · simp [hs]
  · split_ifs <;> simp [List.filter_append, set_tgt_clip_no_paint, call_t.is_paint]

theorem paint_all_windows_paint_calls (ps : session_t) (damage : region_t) (t : List win)
    (reply : paint_all_reply_t) :
    (paint_all_windows ps damage t reply).filter call_t.is_paint =
      call_t.paint_root (paint_all_root_region damage t)
        :: t.flatMap fun w => (paint_all_win ps damage reply w).filter call_t.is_paint := by
  unfold paint_all_windows
  simp only [List.filter_append, set_tgt_clip_no_paint, filter_flatMap_paint]
  simp [call_t.is_paint]

/-- Up to the start of painting `paint_all` changes the sync fence, the screen
region and the target buffer only. -/
theorem paint_all_session_ps (ps : session_t) (region : Option region_t)
    (reply : paint_all_reply_t) :
    ∃ (buf : paint_t) (fence : Nat) (sync : Bool) (screen : region_t),
      (paint_all_session ps region reply).ps =
        { ps with tgt_buffer := buf, sync_fence := fence, o_xrender_sync_fence := sync,
                  screen_reg := screen } := by
  have h1 : ∃ (fence : Nat) (sync : Bool),
      (paint_all_fence ps reply).1 = { ps with sync_fence := fence, o_xrender_sync_fence := sync } := by
    unfold paint_all_fence
    split_ifs
    · exact ⟨_, _, rfl⟩
    · exact ⟨ps.sync_fence, ps.o_xrender_sync_fence, rfl⟩
    · exact ⟨ps.sync_fence, ps.o_xrender_sync_fence, rfl⟩
  obtain ⟨fence, sync, h1⟩ := h1
  have h2 : ∃ (screen : region_t),
      (paint_all_pre (paint_all_fence ps reply).1 region reply).1 =
        { ps with sync_fence := fence, o_xrender_sync_fence := sync, screen_reg := screen } := by
    rw [h1]
    unfold paint_all_pre
    split_ifs
    · cases region
      · exact ⟨_, rfl⟩
      · exact ⟨ps.screen_reg, rfl⟩
    · exact ⟨ps.screen_reg, rfl⟩
  obtain ⟨screen, h2⟩ := h2
  unfold paint_all_session
  simp only []
  rw [h2]
  unfold paint_all_target
  simp only []
  split_ifs
  all_goals exact ⟨_, fence, sync, screen, rfl⟩

theorem paint_all_shadow_region_session (ps : session_t) (buf : paint_t) (fence : Nat)
    (sync : Bool) (screen damage : region_t) (w : win) :
    paint_all_shadow_region
        { ps with tgt_buffer := buf, sync_fence := fence, o_xrender_sync_fence := sync,
                  screen_reg := screen } damage w
      = paint_all_shadow_region ps damage w :=
  rfl

/-- The shadow region the loop computes is the region of the specification,
cut to the Xinerama screen of the window when the crop applies. -/
theorem paint_all_shadow_region_eq (ps : session_t) (damage : region_t) (w : win) :
    paint_all_shadow_region ps damage w =
      if xinerama_crop_applies ps w then
        shadow_region_spec ps damage w ∩ ps.xinerama_scr_regs.getD w.xinerama_scr.toNat ∅
      else shadow_region_spec ps damage w := by
  have hex : (if ps.shadow_exclude_reg.Nonempty then
        (damage \ w.reg_ignore) \ ps.shadow_exclude_reg else damage \ w.reg_ignore)
      = (damage \ w.reg_ignore) \ ps.shadow_exclude_reg := by
    split_ifs with h
    · rfl
    · rw [Finset.not_nonempty_iff_eq_empty.1 h, Finset.sdiff_empty]
  unfold paint_all_shadow_region shadow_region_spec xinerama_crop_applies
  simp only [hex]
  cases w.full_shadow <;> simp

theorem shadow_region_spec_avoids (ps : session_t) (damage : region_t) (w : win)
    (p : Int × Int) (hp : p ∈ shadow_region_spec ps damage w) :
    p ∈ damage ∧ p ∉ w.reg_ignore ∧ p ∉ ps.shadow_exclude_reg ∧
    p ∈ rect_region (w.g_x + w.shadow_dx) (w.g_y + w.shadow_dy) w.shadow_width w.shadow_height ∧
    (w.full_shadow = false → p ∉ w.bshape_global) := by
  unfold shadow_region_spec at hp
  cases hf : w.full_shadow <;> simp [hf, Finset.mem_sdiff, Finset.mem_inter] at hp ⊢ <;> tauto

theorem paint_all_shadow_region_subset (ps : session_t) (damage : region_t) (w : win) :
    paint_all_shadow_region ps damage w ⊆ shadow_region_spec ps damage w := by
  rw [paint_all_shadow_region_eq]
  split_ifs
  · exact Finset.inter_subset_left
  · exact Finset.Subset.refl _

theorem paint_all_win_region_eq (damage : region_t) (w : win) :
    paint_all_win_region damage w = damage ∩ (w.bshape_global \ w.reg_ignore) := by
  unfold paint_all_win_region
  ext p
  simp only [Finset.mem_inter, Finset.mem_sdiff]
  tauto

/-- A painting call among the calls of `paint_all` is the desktop background or
a painting call of one turn of the loop. -/
theorem mem_paint_all_calls (ps : session_t) (region region_real : Option region_t)
    (t : List win) (reply : paint_all_reply_t) (c : call_t) (hp : c.is_paint = true) :
    c ∈ (paint_all ps region region_real t reply).calls ↔
      (paint_all ps region region_real t reply).exited = false ∧
      (c = call_t.paint_root (paint_all_root_region (paint_all_damage ps region reply) t) ∨
        ∃ w ∈ t, c ∈ (paint_all_win (paint_all_session ps region reply).ps
          (paint_all_damage ps region reply) reply w).filter call_t.is_paint) := by
  have h1 : c ∈ (paint_all ps region region_real t reply).calls ↔
      c ∈ (paint_all ps region region_real t reply).calls.filter call_t.is_paint := by
    rw [List.mem_filter]
    exact ⟨fun h => ⟨h, hp⟩, fun h => h.1⟩
  rw [h1, paint_all_paint_calls, paint_all_windows_paint_calls]
  cases he : (paint_all ps region region_real t reply).exited
  · simp only [Bool.false_eq_true, if_false, List.mem_cons, List.mem_flatMap, true_and]
  · simp

theorem paint_all_win_session (ps : session_t) (region : Option region_t)
    (reply : paint_all_reply_t) (w : win) :
    (paint_all_win (paint_all_session ps region reply).ps
        (paint_all_damage ps region reply) reply w).filter call_t.is_paint =
      (if w.shadow = true ∧ (paint_all_shadow_region ps (paint_all_damage ps region reply) w).Nonempty then
          [call_t.win_paint_shadow w.id (paint_all_shadow_region ps (paint_all_damage ps region reply) w)]
        else [])
      ++ (if (paint_all_win_region (paint_all_damage ps region reply) w).Nonempty then
            (if (w.blur_background && (!w.is_solid
                  || (ps.o_blur_background_frame && decide (w.frame_opacity ≠ 1)))) = true then
              [call_t.win_blur_background w.id
                (paint_all_session ps region reply).ps.tgt_buffer.pict
                (paint_all_win_region (paint_all_damage ps region reply) w)]
            else [])
            ++ [call_t.paint_one w.id (paint_all_win_region (paint_all_damage ps region reply) w)]
          else []) := by
  rw [paint_all_win_paint_calls]
  obtain ⟨buf, fence, sync, screen, hps⟩ := paint_all_session_ps ps region reply
  rw [hps, paint_all_shadow_region_session]

/-- C8: in `paint_all`, every call of `win_paint_shadow` is for a window of the
list that casts a shadow, and its region is not empty and equals
`((damage - reg_ignore) - shadow_exclude_reg)` cut to the shadow rectangle,
minus the bounding shape unless the window type has `full_shadow` (and cut to
the Xinerama screen of the window when that crop applies); so it holds no
point of `reg_ignore` nor, without `full_shadow`, of the window body.
Conversely the shadow of such a window is painted when that region is not
empty. -/
theorem paint_all_shadow_paint (ps : session_t) (region region_real : Option region_t)
    (t : List win) (reply : paint_all_reply_t) :
    (∀ (id : Nat) (reg : region_t),
      call_t.win_paint_shadow id reg ∈ (paint_all ps region region_real t reply).calls →
      ∃ w ∈ t, w.id = id ∧ w.shadow = true ∧ reg.Nonempty ∧
        reg = (if xinerama_crop_applies ps w then
                shadow_region_spec ps (paint_all_damage ps region reply) w
                  ∩ ps.xinerama_scr_regs.getD w.xinerama_scr.toNat ∅
              else shadow_region_spec ps (paint_all_damage ps region reply) w) ∧
        ∀ p ∈ reg, p ∉ w.reg_ignore ∧ (w.full_shadow = false → p ∉ w.bshape_global)) ∧
    (∀ w ∈ t, w.shadow = true → (paint_all ps region region_real t reply).exited = false →
      (if xinerama_crop_applies ps w then
          shadow_region_spec ps (paint_all_damage ps region reply) w
            ∩ ps.xinerama_scr_regs.getD w.xinerama_scr.toNat ∅
        else shadow_region_spec ps (paint_all_damage ps region reply) w).Nonempty →
      call_t.win_paint_shadow w.id
          (if xinerama_crop_applies ps w then
            shadow_region_spec ps (paint_all_damage ps region reply) w
              ∩ ps.xinerama_scr_regs.getD w.xinerama_scr.toNat ∅
          else shadow_region_spec ps (paint_all_damage ps region reply) w)
        ∈ (paint_all ps region region_real t reply).calls) := by
  refine ⟨?_, ?_⟩
  · intro id reg hmem
    rw [mem_paint_all_calls ps region region_real t reply (call_t.win_paint_shadow id reg) rfl]
      at hmem
    obtain ⟨_, hroot | ⟨w, hw, hc⟩⟩ := hmem
    · exact call_t.noConfusion hroot
    · rw [paint_all_win_session] at hc
      refine ⟨w, hw, ?_⟩
      rw [List.mem_append] at hc
      rcases hc with hc | hc
      · split_ifs at hc with hs
        · rw [List.mem_singleton] at hc
          injection hc with h1 h2
          refine ⟨h1.symm, hs.1, h2 ▸ hs.2, ?_, ?_⟩
          · rw [h2, paint_all_shadow_region_eq]
          · intro p hp
            rw [h2] at hp
            have := shadow_region_spec_avoids ps _ w p (paint_all_shadow_region_subset ps _ w hp)
            exact ⟨this.2.1, this.2.2.2.2⟩
        · exact absurd hc (List.not_mem_nil _)
      · split_ifs at hc <;> simp at hc
  · intro w hw hs hex hne
    refine (mem_paint_all_calls ps region region_real t reply _ ?_).2
      ⟨hex, Or.inr ⟨w, hw, ?_⟩⟩
    · rfl
    · rw [← paint_all_shadow_region_eq] at hne
      rw [paint_all_win_session, ← paint_all_shadow_region_eq, if_pos ⟨hs, hne⟩]
      exact List.mem_append_left _ (List.mem_singleton_self _)

/-- Witness of C8: the shadow of the bottom window of the sample scene is
painted. -/
theorem paint_all_shadow_paint_witness :
    call_t.win_paint_shadow sample_bottom_win.id
        (if xinerama_crop_applies sample_session sample_bottom_win then
          shadow_region_spec sample_session
              (paint_all_damage sample_session none sample_paint_all_reply) sample_bottom_win
            ∩ sample_session.xinerama_scr_regs.getD sample_bottom_win.xinerama_scr.toNat ∅
        else shadow_region_spec sample_session
          (paint_all_damage sample_session none sample_paint_all_reply) sample_bottom_win)
      ∈ (paint_all sample_session none none [sample_bottom_win, sample_top_win]
          sample_paint_all_reply).calls :=
  (paint_all_shadow_paint sample_session none none [sample_bottom_win, sample_top_win]
    sample_paint_all_reply).2 sample_bottom_win (List.mem_cons_self _ _) (by decide) (by decide)
    (by decide)

/-- C10: the painting calls of one `paint_all`, in the order they are made: none
when the process ends on a failed allocation; otherwise the desktop
background first, then the windows in list order from the bottom one, the
calls of one window all before those of the next, and for each window at most
its shadow, then its background blur, then the window itself. -/
theorem paint_all_order (ps : session_t) (region region_real : Option region_t)
    (t : List win) (reply : paint_all_reply_t) :
    ((paint_all ps region region_real t reply).exited = true ∧
      (paint_all ps region region_real t reply).calls.filter call_t.is_paint = []) ∨
    ((paint_all ps region region_real t reply).exited = false ∧
      ∃ (pict : Nat) (ops : win → List call_t),
        (paint_all ps region region_real t reply).calls.filter call_t.is_paint =
          call_t.paint_root (paint_all_root_region (paint_all_damage ps region reply) t)
            :: t.flatMap ops ∧
        ∀ w, List.Sublist (ops w)
          [call_t.win_paint_shadow w.id
              (paint_all_shadow_region ps (paint_all_damage ps region reply) w),
           call_t.win_blur_background w.id pict
              (paint_all_win_region (paint_all_damage ps region reply) w),
           call_t.paint_one w.id (paint_all_win_region (paint_all_damage ps region reply) w)]) := by
  cases hex : (paint_all ps region region_real t reply).exited
  · right
    refine ⟨rfl, (paint_all_session ps region reply).ps.tgt_buffer.pict,
      fun w => (paint_all_win (paint_all_session ps region reply).ps
        (paint_all_damage ps region reply) reply w).filter call_t.is_paint, ?_, ?_⟩
    · rw [paint_all_paint_calls, hex, paint_all_windows_paint_calls]
      rfl
    · intro w
      show List.Sublist ((paint_all_win (paint_all_session ps region reply).ps
        (paint_all_damage ps region reply) reply w).filter call_t.is_paint) _
      rw [paint_all_win_session]
      split_ifs <;>
        simp only [List.nil_append, List.append_nil, List.cons_append] <;>
        repeat (first
          | exact List.Sublist.refl _
          | apply List.Sublist.cons₂
          | apply List.Sublist.cons)
  · left
    refine ⟨rfl, ?_⟩
    rw [paint_all_paint_calls, hex]
    rfl

/-! ### The damage region and the failure to allocate the target -/

theorem paint_all_resolve_subset (ps : session_t) (region : Option region_t) :
    paint_all_resolve ps region ⊆ ps.screen_reg := by
  unfold paint_all_resolve
  cases region with
  | none => exact Finset.Subset.refl _
  | some r => exact Finset.inter_subset_right

theorem paint_all_damage_plain (ps : session_t) (region : Option region_t)
    (reply : paint_all_reply_t) (h : ps.config_opengl = false ∨ bkend_use_glx ps = false) :
    paint_all_damage ps region reply = paint_all_resolve ps region := by
  unfold paint_all_damage
  rcases h with h | h <;> simp [h]

theorem paint_all_damage_glx (ps : session_t) (region : Option region_t)
    (reply : paint_all_reply_t) (h1 : ps.config_opengl = true) (h2 : bkend_use_glx ps = true) :
    paint_all_damage ps region reply = reply.glx_paint_pre (paint_all_resolve ps region) := by
  unfold paint_all_damage
  simp [h1, h2]

/-- The region of every painting call of one turn of the loop lies in the
damage. -/
theorem paint_all_win_in_damage (ps : session_t) (region : Option region_t)
    (reply : paint_all_reply_t) (w : win) (c : call_t)
    (hc : c ∈ (paint_all_win (paint_all_session ps region reply).ps
      (paint_all_damage ps region reply) reply w).filter call_t.is_paint) :
    ∃ reg : region_t, reg ⊆ paint_all_damage ps region reply ∧
      (c = call_t.win_paint_shadow w.id reg ∨
        c = call_t.win_blur_background w.id
          (paint_all_session ps region reply).ps.tgt_buffer.pict reg ∨
        c = call_t.paint_one w.id reg) := by
  have hs : paint_all_shadow_region ps (paint_all_damage ps region reply) w
      ⊆ paint_all_damage ps region reply := by
    intro p hp
    exact (shadow_region_spec_avoids ps _ w p (paint_all_shadow_region_subset ps _ w hp)).1
  have hr : paint_all_win_region (paint_all_damage ps region reply) w
      ⊆ paint_all_damage ps region reply := by
    rw [paint_all_win_region_eq]
    exact Finset.inter_subset_left
  rw [paint_all_win_session, List.mem_append] at hc
  rcases hc with hc | hc
  · split_ifs at hc
    · rw [List.mem_singleton] at hc
      exact ⟨_, hs, Or.inl hc⟩
    · exact absurd hc (List.not_mem_nil _)
  · split_ifs at hc
    · simp only [List.singleton_append, List.mem_cons, List.mem_singleton, List.not_mem_nil,
        or_false] at hc
      rcases hc with hc | hc
      · exact ⟨_, hr, Or.inr (Or.inl hc)⟩
      · exact ⟨_, hr, Or.inr (Or.inr hc)⟩
    · simp only [List.nil_append, List.mem_singleton] at hc
      exact ⟨_, hr, Or.inr (Or.inr hc)⟩
    · exact absurd hc (List.not_mem_nil _)

/-- C11 (as amended): in `paint_all`, on a backend that does not use GLX, or
in a build without OpenGL, the damage region is the region of the caller
intersected with the screen region, and the screen region itself when the
caller hands none, so it lies within the screen region.  On the GLX and hybrid
backends of a build with OpenGL the damage is what `glx_paint_pre` leaves of
that region.  On every backend `paint_root` is only ever called with the damage
minus `reg_ignore` of the first, bottom-most, window of the list, or with the
whole damage when the list is empty, and it is called with that region
whenever `paint_all` does not exit; the regions handed to `win_paint_shadow`,
`win_blur_background` and `paint_one` lie within the damage. -/
theorem paint_all_damage_region (ps : session_t) (region region_real : Option region_t)
    (t : List win) (reply : paint_all_reply_t) :
    (ps.config_opengl = false ∨ bkend_use_glx ps = false →
      (∀ r, region = some r → paint_all_damage ps region reply = r ∩ ps.screen_reg) ∧
      (region = none → paint_all_damage ps region reply = ps.screen_reg) ∧
      paint_all_damage ps region reply ⊆ ps.screen_reg) ∧
    (ps.config_opengl = true → bkend_use_glx ps = true →
      (∀ r, region = some r →
        paint_all_damage ps region reply = reply.glx_paint_pre (r ∩ ps.screen_reg)) ∧
      (region = none → paint_all_damage ps region reply = reply.glx_paint_pre ps.screen_reg)) ∧
    (∀ c ∈ (paint_all ps region region_real t reply).calls,
      (∀ reg, c = call_t.paint_root reg →
        (t = [] → reg = paint_all_damage ps region reply) ∧
        (∀ w ws, t = w :: ws → reg = paint_all_damage ps region reply \ w.reg_ignore)) ∧
      (∀ id reg, c = call_t.win_paint_shadow id reg → reg ⊆ paint_all_damage ps region reply) ∧
      (∀ id pict reg, c = call_t.win_blur_background id pict reg →
        reg ⊆ paint_all_damage ps region reply) ∧
      (∀ id reg, c = call_t.paint_one id reg → reg ⊆ paint_all_damage ps region reply)) ∧
    ((paint_all ps region region_real t reply).exited = false →
      (t = [] → call_t.paint_root (paint_all_damage ps region reply)
        ∈ (paint_all ps region region_real t reply).calls) ∧
      (∀ w ws, t = w :: ws → call_t.paint_root (paint_all_damage ps region reply \ w.reg_ignore)
        ∈ (paint_all ps region region_real t reply).calls)) := by
  have hroot : (t = [] →
        paint_all_root_region (paint_all_damage ps region reply) t
          = paint_all_damage ps region reply) ∧
      (∀ w ws, t = w :: ws →
        paint_all_root_region (paint_all_damage ps region reply) t
          = paint_all_damage ps region reply \ w.reg_ignore) := by
    refine ⟨?_, ?_⟩
    · intro h
      rw [h]
      rfl
    · intro w ws h
      rw [h]
      rfl
  refine ⟨?_, ?_, ?_, ?_⟩
  · intro hx
    have hd := paint_all_damage_plain ps region reply hx
    refine ⟨?_, ?_, ?_⟩
    · intro r hr
      rw [hd, hr]
      rfl
    · intro hr
      rw [hd, hr]
      rfl
    · rw [hd]
      exact paint_all_resolve_subset ps region
  · intro h1 h2
    have hd := paint_all_damage_glx ps region reply h1 h2
    refine ⟨?_, ?_⟩
    · intro r hr
      rw [hd, hr]
      rfl
    · intro hr
      rw [hd, hr]
      rfl
  · intro c hc
    have key : c.is_paint = true →
        c = call_t.paint_root (paint_all_root_region (paint_all_damage ps region reply) t) ∨
        ∃ w ∈ t, ∃ reg : region_t, reg ⊆ paint_all_damage ps region reply ∧
          (c = call_t.win_paint_shadow w.id reg ∨
            c = call_t.win_blur_background w.id
              (paint_all_session ps region reply).ps.tgt_buffer.pict reg ∨
            c = call_t.paint_one w.id reg) := by
      intro hp
      rcases ((mem_paint_all_calls ps region region_real t reply c hp).1 hc).2 with h | ⟨w, hw, h⟩
      · exact Or.inl h
      · exact Or.inr ⟨w, hw, paint_all_win_in_damage ps region reply w c h⟩
    refine ⟨?_, ?_, ?_, ?_⟩
    · intro reg hreg
      subst hreg
      rcases key rfl with h | ⟨w, _, r, _, h | h | h⟩
      · injection h with h
        rw [h]
        exact hroot
      · exact call_t.noConfusion h
      · exact call_t.noConfusion h
      · exact call_t.noConfusion h
    · intro id reg hreg
      subst hreg
      rcases key rfl with h | ⟨w, _, r, hr, h | h | h⟩
      · exact call_t.noConfusion h
      · injection h with _ h
        rw [h]
        exact hr
      · exact call_t.noConfusion h
      · exact call_t.noConfusion h
    · intro id pict reg hreg
      subst hreg
      rcases key rfl with h | ⟨w, _, r, hr, h | h | h⟩
      · exact call_t.noConfusion h
      · exact call_t.noConfusion h
      · injection h with _ _ h
        rw [h]
        exact hr
      · exact call_t.noConfusion h
    · intro id reg hreg
      subst hreg
      rcases key rfl with h | ⟨w, _, r, hr, h | h | h⟩
      · exact call_t.noConfusion h
      · exact call_t.noConfusion h
      · exact call_t.noConfusion h
      · injection h with _ h
        rw [h]
        exact hr
  · intro hex
    have hmem : call_t.paint_root (paint_all_root_region (paint_all_damage ps region reply) t)
        ∈ (paint_all ps region region_real t reply).calls :=
      (mem_paint_all_calls ps region region_real t reply
        (call_t.paint_root (paint_all_root_region (paint_all_damage ps region reply) t)) rfl).2
        ⟨hex, Or.inl rfl⟩
    refine ⟨?_, ?_⟩
    · intro h
      rw [← hroot.1 h]
      exact hmem
    · intro w ws h
      rw [← hroot.2 w ws h]
      exact hmem

theorem quiet_of_filter (l : List call_t)
    (h : l.filter (fun c => c.is_paint || c.is_present) = []) :
    ∀ c ∈ l, c.is_paint = false ∧ c.is_present = false := by
  intro c hc
  have := List.filter_eq_nil_iff.1 h c hc
  simpa using this

theorem paint_all_fence_quiet (ps : session_t) (reply : paint_all_reply_t) :
    (paint_all_fence ps reply).2.filter (fun c => c.is_paint || c.is_present) = [] := by
  unfold paint_all_fence
  split_ifs <;> simp [call_t.is_paint, call_t.is_present]

theorem paint_all_pre_quiet (ps : session_t) (region : Option region_t)
    (reply : paint_all_reply_t) :
    (paint_all_pre ps region reply).2.filter (fun c => c.is_paint || c.is_present) = [] := by
  unfold paint_all_pre
  split_ifs <;> simp [call_t.is_paint, call_t.is_present]

theorem paint_all_target_quiet (ps : session_t) (reply : paint_all_reply_t) :
    (paint_all_target ps reply).calls.filter (fun c => c.is_paint || c.is_present) = [] := by
  have hreq : ∀ l : List request_t,
      (l.map call_t.request).filter (fun c => c.is_paint || c.is_present) = [] := by
    intro l
    induction l with
    | nil => rfl
    | cons q qs ih => simp [call_t.is_paint, call_t.is_present]
  unfold paint_all_target
  simp only []
  split_ifs <;> simp [call_t.is_paint, call_t.is_present, hreq]

theorem paint_all_pre_target (ps : session_t) (region : Option region_t)
    (reply : paint_all_reply_t) :
    (paint_all_pre (paint_all_fence ps reply).1 region reply).1.tgt_buffer = ps.tgt_buffer ∧
    (paint_all_pre (paint_all_fence ps reply).1 region reply).1.o_backend = ps.o_backend ∧
    (paint_all_pre (paint_all_fence ps reply).1 region reply).1.config_opengl = ps.config_opengl ∧
    (paint_all_pre (paint_all_fence ps reply).1 region reply).1.root_width = ps.root_width ∧
    (paint_all_pre (paint_all_fence ps reply).1 region reply).1.root_height = ps.root_height := by
  unfold paint_all_pre paint_all_fence
  cases region <;> split_ifs <;> exact ⟨rfl, rfl, rfl, rfl, rfl⟩

theorem paint_isvalid_congr (ps ps1 : session_t) (p : Option paint_t)
    (hb : ps1.o_backend = ps.o_backend) (hc : ps1.config_opengl = ps.config_opengl) :
    paint_isvalid ps1 p = paint_isvalid ps p := by
  unfold paint_isvalid bkend_use_xrender
  rw [hb, hc]

/-- When the target buffer is not valid and has no pixmap, and the pixmap
cannot be allocated, the preparation of the target ends the process right
after the allocation. -/
theorem paint_all_target_fails (ps : session_t) (reply : paint_all_reply_t)
    (hv : paint_isvalid ps (some ps.tgt_buffer) = false)
    (hp : ps.tgt_buffer.pixmap = XCB_NONE) (hfail : reply.created_pixmap = XCB_NONE) :
    (paint_all_target ps reply).exited = true ∧
    (paint_all_target ps reply).calls =
      (free_paint ps ps.tgt_buffer).2.map call_t.request
        ++ [call_t.x_create_pixmap ps.root_width ps.root_height,
            call_t.log_fatal "Failed to allocate a screen-sized pixmap forpainting",
            call_t.exit_process 1] := by
  unfold paint_all_target
  simp [hv, hp, hfail]

/-- C12: in `paint_all`, when the target buffer is not valid and has no pixmap,
and the X server returns no pixmap for it, `paint_all` exits: its calls end
with the failed `x_create_pixmap`, the fatal log message and `exit(1)`, and
none of its calls paints (the background, a shadow, a blur, a window) or
presents a frame (a composite onto the screen, a GLX render, a swap of the
buffers). -/
theorem paint_all_alloc_failure (ps : session_t) (region region_real : Option region_t)
    (t : List win) (reply : paint_all_reply_t)
    (hv : paint_isvalid ps (some ps.tgt_buffer) = false)
    (hp : ps.tgt_buffer.pixmap = XCB_NONE) (hfail : reply.created_pixmap = XCB_NONE) :
    (paint_all ps region region_real t reply).exited = true ∧
    (∃ before : List call_t,
      (paint_all ps region region_real t reply).calls =
        before ++ [call_t.x_create_pixmap ps.root_width ps.root_height,
          call_t.log_fatal "Failed to allocate a screen-sized pixmap forpainting",
          call_t.exit_process 1]) ∧
    (∀ c ∈ (paint_all ps region region_real t reply).calls,
      c.is_paint = false ∧ c.is_present = false) := by
  obtain ⟨h1, h2, h3, h4, h5⟩ := paint_all_pre_target ps region reply
  have hv1 : paint_isvalid (paint_all_pre (paint_all_fence ps reply).1 region reply).1
      (some (paint_all_pre (paint_all_fence ps reply).1 region reply).1.tgt_buffer) = false := by
    rw [h1, paint_isvalid_congr ps _ _ h2 h3]
    exact hv
  obtain ⟨he, hc⟩ := paint_all_target_fails
    (paint_all_pre (paint_all_fence ps reply).1 region reply).1 reply hv1 (by rw [h1]; exact hp)
    hfail
  have hex : (paint_all_session ps region reply).exited = true := he
  have hcalls : (paint_all ps region region_real t reply).calls =
      (paint_all_fence ps reply).2 ++ (paint_all_pre (paint_all_fence ps reply).1 region reply).2
        ++ (paint_all_target (paint_all_pre (paint_all_fence ps reply).1 region reply).1
            reply).calls := by
    rw [paint_all_calls_exited ps region region_real t reply hex]
    rfl
  refine ⟨?_, ?_, ?_⟩
  · rw [paint_all_exited]
    exact hex
  · rw [hcalls, hc, h4, h5]
    exact ⟨_, (List.append_assoc _ _ _).symm⟩
  · apply quiet_of_filter
    rw [hcalls, List.filter_append, List.filter_append, paint_all_fence_quiet,
      paint_all_pre_quiet, paint_all_target_quiet]
    rfl

/-- C17 (as amended): in `paint_all`, `win_blur_background` is called for a
window, with the region `reg`, exactly when `paint_all` does not exit, `reg`
is the damage within the bounding shape of the window minus its `reg_ignore`,
that region is not empty, the window asks for the blur of its background, and
either it is not solid or the blur of frames is switched on and its frame
opacity is not 1. -/
theorem paint_all_blur_condition (ps : session_t) (region region_real : Option region_t)
    (t : List win) (reply : paint_all_reply_t) (id : Nat) (reg : region_t) :
    (∃ pict, call_t.win_blur_background id pict reg
        ∈ (paint_all ps region region_real t reply).calls) ↔
      ((paint_all ps region region_real t reply).exited = false ∧
        ∃ w ∈ t, w.id = id ∧
          reg = paint_all_damage ps region reply ∩ (w.bshape_global \ w.reg_ignore) ∧
          reg.Nonempty ∧
          w.blur_background = true ∧
          (w.is_solid = false ∨ (ps.o_blur_background_frame = true ∧ w.frame_opacity ≠ 1))) := by
  constructor
  · rintro ⟨pict, hmem⟩
    rw [mem_paint_all_calls ps region region_real t reply
      (call_t.win_blur_background id pict reg) rfl] at hmem
    obtain ⟨hex, hroot | ⟨w, hw, hc⟩⟩ := hmem
    · exact call_t.noConfusion hroot
    · refine ⟨hex, w, hw, ?_⟩
      rw [paint_all_win_session, List.mem_append] at hc
      rcases hc with hc | hc
      · split_ifs at hc <;> simp at hc
      · split_ifs at hc with hne hbl
        · simp only [List.singleton_append, List.mem_cons, List.mem_singleton,
            List.not_mem_nil, or_false] at hc
          rcases hc with hc | hc
          · injection hc with h1 h2 h3
            refine ⟨h1.symm, by rw [h3, paint_all_win_region_eq], h3 ▸ hne, ?_⟩
            simp only [Bool.and_eq_true, Bool.or_eq_true, Bool.not_eq_true',
              decide_eq_true_eq] at hbl
            exact hbl
          · exact call_t.noConfusion hc
        · simp only [List.nil_append, List.mem_singleton] at hc
          exact call_t.noConfusion hc
        · exact absurd hc (List.not_mem_nil _)
  · rintro ⟨hex, w, hw, hid, hreg, hne, hb, hcond⟩
    refine ⟨(paint_all_session ps region reply).ps.tgt_buffer.pict, ?_⟩
    refine (mem_paint_all_calls ps region region_real t reply _ ?_).2
      ⟨hex, Or.inr ⟨w, hw, ?_⟩⟩
    · rfl
    · rw [hreg, ← paint_all_win_region_eq] at hne
      have hbl : (w.blur_background && (!w.is_solid
          || (ps.o_blur_background_frame && decide (w.frame_opacity ≠ 1)))) = true := by
        simp only [Bool.and_eq_true, Bool.or_eq_true, Bool.not_eq_true', decide_eq_true_eq]
        exact ⟨hb, hcond⟩
      rw [paint_all_win_session, if_pos hne, if_pos hbl, hreg, ← paint_all_win_region_eq,
        ← hid]
      exact List.mem_append_right _ (List.mem_append_left _ (List.mem_singleton_self _))

/-- C17 fails as stated: a solid window that does not ask for the blur of its
background, with a frame opacity of 0 in a session with the blur of frames
switched on, has a non-empty region to paint and is painted by `paint_one`,
but `paint_all` makes no call of `win_blur_background`. -/
theorem paint_all_frame_blur_unrequested :
    ((paint_all sample_frame_blur_session none none [sample_plain_win]
        sample_paint_all_reply).exited = false ∧
      (paint_all_damage sample_frame_blur_session none sample_paint_all_reply
        ∩ (sample_plain_win.bshape_global \ sample_plain_win.reg_ignore)).Nonempty ∧
      sample_plain_win.frame_opacity ≠ 1 ∧
      sample_frame_blur_session.o_blur_background_frame = true) ∧
    (paint_all sample_frame_blur_session none none [sample_plain_win]
        sample_paint_all_reply).calls.filter call_t.is_blur = [] ∧
    call_t.paint_one sample_plain_win.id
        (paint_all_damage sample_frame_blur_session none sample_paint_all_reply
          ∩ (sample_plain_win.bshape_global \ sample_plain_win.reg_ignore))
      ∈ (paint_all sample_frame_blur_session none none [sample_plain_win]
          sample_paint_all_reply).calls := by
  decide

/-- C11 fails as stated: on the GLX backend of a build with OpenGL, with a
`glx_paint_pre` that adds the pixel (100, 100) to the region it is handed and a
damage of 2 x 2 pixels from (0, 0) on the 4 x 4 screen, the damage `paint_all`
paints is not the region of the caller intersected with the screen region, and
does not lie within the screen region; `paint_all` does not exit and calls
`paint_root` with that damage. -/
theorem paint_all_damage_glx_rewritten :
    (sample_glx_session.config_opengl = true ∧ bkend_use_glx sample_glx_session = true) ∧
    paint_all_damage sample_glx_session (some (rect_region 0 0 2 2)) sample_widening_reply
      ≠ rect_region 0 0 2 2 ∩ sample_glx_session.screen_reg ∧
    ¬ (paint_all_damage sample_glx_session (some (rect_region 0 0 2 2)) sample_widening_reply
      ⊆ sample_glx_session.screen_reg) ∧
    (paint_all sample_glx_session (some (rect_region 0 0 2 2)) none []
      sample_widening_reply).exited = false ∧
    call_t.paint_root
        (paint_all_damage sample_glx_session (some (rect_region 0 0 2 2)) sample_widening_reply)
      ∈ (paint_all sample_glx_session (some (rect_region 0 0 2 2)) none []
          sample_widening_reply).calls := by
  decide

/-- Witness of C12: the sample session with an empty target buffer and an X
server that cannot create the pixmap. -/
theorem paint_all_alloc_failure_witness :
    (paint_isvalid sample_unallocated_session (some sample_unallocated_session.tgt_buffer)
        = false ∧
      sample_unallocated_session.tgt_buffer.pixmap = XCB_NONE ∧
      sample_failing_reply.created_pixmap = XCB_NONE) ∧
    (paint_all sample_unallocated_session none none [sample_bottom_win, sample_top_win]
      sample_failing_reply).exited = true ∧
    ∀ c ∈ (paint_all sample_unallocated_session none none [sample_bottom_win, sample_top_win]
        sample_failing_reply).calls, c.is_paint = false ∧ c.is_present = false :=
  have h := paint_all_alloc_failure sample_unallocated_session none none
    [sample_bottom_win, sample_top_win] sample_failing_reply (by decide) rfl rfl
  ⟨⟨by decide, rfl, rfl⟩, h.1, h.2.2⟩

/-! ### The alpha pictures of `render` -/

theorem trunc_nonneg (q : ℚ) (h : 0 ≤ q) : 0 ≤ trunc q := by
  unfold trunc
  exact Int.tdiv_nonneg (Rat.num_nonneg.2 h) (by exact_mod_cast Nat.zero_le _)

theorem log2_fuel_spec (fuel : Nat) : ∀ n : Nat, n ≤ fuel → 0 < n →
    2 ^ log2_fuel fuel n ≤ n ∧ n < 2 ^ (log2_fuel fuel n + 1) := by
  induction fuel with
  | zero =>
    intro n h1 h2
    omega
  | succ fuel ih =>
    intro n h1 h2
    unfold log2_fuel
    by_cases hn : n < 2
    · rw [if_pos hn]
      have : n = 1 := by omega
      subst this
      simp
    · rw [if_neg hn]
      obtain ⟨ih1, ih2⟩ := ih (n / 2) (by omega) (by omega)
      generalize log2_fuel fuel (n / 2) = k at ih1 ih2 ⊢
      simp only [pow_succ] at ih2 ⊢
      generalize 2 ^ k = P at ih1 ih2 ⊢
      omega

theorem pow2_eq (e : Int) : pow2 e = (2 : ℚ) ^ e := by
  unfold pow2
  by_cases h : 0 ≤ e
  · rw [if_pos h]
    obtain ⟨n, rfl⟩ := Int.eq_ofNat_of_zero_le h
    simp
  · rw [if_neg h]
    obtain ⟨n, hn⟩ := Int.eq_ofNat_of_zero_le (show 0 ≤ -e by omega)
    have he : e = -(n : Int) := by omega
    subst he
    simp [zpow_neg]

theorem pow2_pos (e : Int) : 0 < pow2 e := by
  rw [pow2_eq]
  positivity

theorem binade_spec (q : ℚ) (hq : q ≠ 0) :
    (2 : ℚ) ^ binade q ≤ |q| ∧ |q| < (2 : ℚ) ^ (binade q + 1) := by
  have hn : 0 < q.num.natAbs := Int.natAbs_pos.2 (Rat.num_ne_zero.2 hq)
  have hd : 0 < q.den := q.den_pos
  obtain ⟨a1, a2⟩ := log2_fuel_spec q.num.natAbs q.num.natAbs le_rfl hn
  obtain ⟨b1, b2⟩ := log2_fuel_spec q.den q.den le_rfl hd
  have habs : |q| = (q.num.natAbs : ℚ) / (q.den : ℚ) := by
    conv_lhs => rw [← Rat.num_div_den q]
    rw [abs_div, Nat.abs_cast, Nat.cast_natAbs, Int.cast_abs]
  unfold binade
  simp only [pow2_eq]
  generalize log2_fuel q.num.natAbs q.num.natAbs = a at a1 a2 ⊢
  generalize log2_fuel q.den q.den = b at b1 b2 ⊢
  have a1q : ((2 : ℚ) ^ a) ≤ (q.num.natAbs : ℚ) := by exact_mod_cast a1
  have a2q : (q.num.natAbs : ℚ) < (2 : ℚ) ^ (a + 1) := by exact_mod_cast a2
  have b1q : ((2 : ℚ) ^ b) ≤ (q.den : ℚ) := by exact_mod_cast b1
  have b2q : (q.den : ℚ) < (2 : ℚ) ^ (b + 1) := by exact_mod_cast b2
  have hdq : (0 : ℚ) < (q.den : ℚ) := by exact_mod_cast hd
  have hnq : (0 : ℚ) < (q.num.natAbs : ℚ) := by exact_mod_cast hn
  have hup : |q| < (2 : ℚ) ^ ((a : Int) - (b : Int) + 1) := by
    rw [habs, show (a : Int) - (b : Int) + 1 = ((a + 1 : Nat) : Int) - (b : Int) by push_cast; ring,
      zpow_sub₀ (by norm_num), zpow_natCast, zpow_natCast]
    exact div_lt_div₀ a2q b1q (by positivity) (by positivity)
  have hlo : (2 : ℚ) ^ ((a : Int) - (b : Int) - 1) < |q| := by
    rw [habs, show (a : Int) - (b : Int) - 1 = (a : Int) - ((b + 1 : Nat) : Int) by push_cast; ring,
      zpow_sub₀ (by norm_num), zpow_natCast, zpow_natCast]
    exact div_lt_div₀' a1q b2q (by positivity) hdq
  by_cases h : (2 : ℚ) ^ ((a : Int) - (b : Int)) ≤ |q|
  · rw [if_pos h]
    exact ⟨h, hup⟩
  · rw [if_neg h]
    refine ⟨hlo.le, ?_⟩
    rw [sub_add_cancel]
    exact not_le.1 h

theorem binade_mono (x y : ℚ) (hx : 0 < x) (hxy : x ≤ y) : binade x ≤ binade y := by
  have h1 := (binade_spec x hx.ne').1
  have h2 := (binade_spec y (hx.trans_le hxy).ne').2
  rw [abs_of_pos hx] at h1
  rw [abs_of_pos (hx.trans_le hxy)] at h2
  have h3 : (2 : ℚ) ^ binade x < (2 : ℚ) ^ (binade y + 1) := lt_of_le_of_lt (h1.trans hxy) h2
  have h4 := (zpow_lt_zpow_iff_right₀ (by norm_num : (1 : ℚ) < 2)).1 h3
  omega

theorem round_half_even_le (q : ℚ) (n : Int) (h : q ≤ n) : round_half_even q ≤ n := by
  have h1 : ⌊q⌋ ≤ n := Int.floor_le_iff.2 (by have := Int.floor_le q; linarith [Int.lt_floor_add_one q])
  unfold round_half_even
  simp only []
  have hlt : 1 / 2 ≤ q - (⌊q⌋ : ℚ) → ⌊q⌋ + 1 ≤ n := by
    intro hr
    have : ((⌊q⌋ : Int) : ℚ) < (n : ℚ) := by linarith
    have : ⌊q⌋ < n := by exact_mod_cast this
    omega
  split_ifs with c1 c2 c3
  · exact h1
  · exact hlt (by linarith)
  · exact h1
  · exact hlt (by linarith)

theorem le_round_half_even (q : ℚ) (n : Int) (h : (n : ℚ) ≤ q) : n ≤ round_half_even q := by
  have h1 : n ≤ ⌊q⌋ := Int.le_floor.2 h
  unfold round_half_even
  simp only []
  split_ifs <;> omega

theorem round_half_even_mono (q q' : ℚ) (h : q ≤ q') :
    round_half_even q ≤ round_half_even q' := by
  have hf : ⌊q⌋ ≤ ⌊q'⌋ := Int.floor_mono h
  rcases lt_or_eq_of_le hf with hlt | heq
  · have h1 : round_half_even q ≤ ⌊q⌋ + 1 := by
      unfold round_half_even
      simp only []
      split_ifs <;> omega
    have h2 : ⌊q'⌋ ≤ round_half_even q' := le_round_half_even q' _ (Int.floor_le q')
    omega
  · unfold round_half_even
    simp only []
    rw [← heq]
    have hr : q - (⌊q⌋ : ℚ) ≤ q' - (⌊q⌋ : ℚ) := by linarith
    split_ifs <;> first | omega | (exfalso; linarith)

theorem round_double_bounds (x : ℚ) (hx : 0 < x) :
    0 ≤ round_double x ∧
    round_double x ≤ (2 : ℚ) ^ (max (binade x) (-1022) + 1) ∧
    (-1022 ≤ binade x → (2 : ℚ) ^ binade x ≤ round_double x) := by
  obtain ⟨b1, b2⟩ := binade_spec x hx.ne'
  rw [abs_of_pos hx] at b1 b2
  unfold round_double
  rw [if_neg hx.ne']
  simp only [pow2_eq]
  set e := max (binade x) (-1022) with he
  have hulp : (0 : ℚ) < (2 : ℚ) ^ (e - 52) := by positivity
  have hup : (2 : ℚ) ^ (e + 1) = (((2 : Int) ^ 53 : Int) : ℚ) * (2 : ℚ) ^ (e - 52) := by
    rw [show e + 1 = 53 + (e - 52) by ring, zpow_add₀ (by norm_num)]
    norm_num
  have hlo : (2 : ℚ) ^ e = (((2 : Int) ^ 52 : Int) : ℚ) * (2 : ℚ) ^ (e - 52) := by
    conv_lhs => rw [show e = 52 + (e - 52) by ring, zpow_add₀ (by norm_num)]
    norm_num
  refine ⟨?_, ?_, ?_⟩
  · apply mul_nonneg _ hulp.le
    have : (0 : Int) ≤ round_half_even (x / (2 : ℚ) ^ (e - 52)) :=
      le_round_half_even _ 0 (by simpa using (div_pos hx hulp).le)
    exact_mod_cast this
  · rw [hup]
    apply mul_le_mul_of_nonneg_right _ hulp.le
    have hx2 : x ≤ (2 : ℚ) ^ (e + 1) :=
      b2.le.trans (zpow_le_zpow_right₀ (by norm_num) (by omega))
    have : round_half_even (x / (2 : ℚ) ^ (e - 52)) ≤ (2 : Int) ^ 53 := by
      apply round_half_even_le
      rw [div_le_iff₀ hulp, ← hup]
      exact hx2
    exact_mod_cast this
  · intro hb
    have hee : e = binade x := by omega
    rw [← hee, hlo]
    apply mul_le_mul_of_nonneg_right _ hulp.le
    have : (2 : Int) ^ 52 ≤ round_half_even (x / (2 : ℚ) ^ (e - 52)) := by
      apply le_round_half_even
      rw [le_div_iff₀ hulp, ← hlo, hee]
      exact b1
    exact_mod_cast this

theorem round_double_nonneg (x : ℚ) (hx : 0 ≤ x) : 0 ≤ round_double x := by
  rcases eq_or_lt_of_le hx with h | h
  · rw [← h]
    unfold round_double
    simp
  · exact (round_double_bounds x h).1

theorem round_double_mono (x y : ℚ) (hx : 0 ≤ x) (hxy : x ≤ y) :
    round_double x ≤ round_double y := by
  rcases eq_or_lt_of_le hx with h | h
  · rw [← h]
    have h0 : round_double 0 = 0 := by
      unfold round_double
      simp
    rw [h0]
    exact round_double_nonneg y (hx.trans hxy)
  · have hy : 0 < y := h.trans_le hxy
    have hb := binade_mono x y h hxy
    obtain ⟨_, x2, _⟩ := round_double_bounds x h
    obtain ⟨_, _, y3⟩ := round_double_bounds y hy
    by_cases hee : max (binade x) (-1022) = max (binade y) (-1022)
    · unfold round_double
      rw [if_neg h.ne', if_neg hy.ne']
      simp only [pow2_eq, hee]
      have hulp : (0 : ℚ) < (2 : ℚ) ^ (max (binade y) (-1022) - 52) := by positivity
      apply mul_le_mul_of_nonneg_right _ hulp.le
      have := round_half_even_mono _ _ (div_le_div_of_nonneg_right hxy hulp.le)
      exact_mod_cast this
    · have hlt : max (binade x) (-1022) + 1 ≤ binade y := by omega
      have hy1 : -1022 ≤ binade y := by omega
      exact x2.trans ((zpow_le_zpow_right₀ (by norm_num) hlt).trans (y3 hy1))

/-! ### The centre weight of the blur -/

theorem round_double_one : round_double 1 = 1 := by decide!

theorem blur_den_pos : 0 < round_double (round_double 1.1 - 1) := by decide!

theorem blur_pct_spec (a b : ℚ) (ha : 0 ≤ a) (hab : a ≤ b) (hb : b ≤ 1) :
    0 ≤ round_double (1 - round_double (b * round_double (1 - round_double (1 / 9)))) ∧
    round_double (1 - round_double (b * round_double (1 - round_double (1 / 9))))
      ≤ round_double (1 - round_double (a * round_double (1 - round_double (1 / 9)))) ∧
    round_double (1 - round_double (a * round_double (1 - round_double (1 / 9)))) ≤ 1 := by
  have h9 : 0 ≤ round_double (1 / 9) := round_double_nonneg _ (by norm_num)
  have h9' : round_double (1 / 9) ≤ 1 := by
    have := round_double_mono (1 / 9) 1 (by norm_num) (by norm_num)
    rwa [round_double_one] at this
  have hc0 : 0 ≤ round_double (1 - round_double (1 / 9)) :=
    round_double_nonneg _ (by linarith)
  have hc1 : round_double (1 - round_double (1 / 9)) ≤ 1 := by
    have := round_double_mono (1 - round_double (1 / 9)) 1 (by linarith) (by linarith)
    rwa [round_double_one] at this
  generalize round_double (1 - round_double (1 / 9)) = c at hc0 hc1 ⊢
  have hpa0 : 0 ≤ round_double (a * c) := round_double_nonneg _ (mul_nonneg ha hc0)
  have hpab : round_double (a * c) ≤ round_double (b * c) :=
    round_double_mono _ _ (mul_nonneg ha hc0) (mul_le_mul_of_nonneg_right hab hc0)
  have hpb1 : round_double (b * c) ≤ 1 := by
    have := round_double_mono (b * c) 1 (mul_nonneg (ha.trans hab) hc0)
      (by nlinarith)
    rwa [round_double_one] at this
  refine ⟨round_double_nonneg _ (by linarith), ?_, ?_⟩
  · exact round_double_mono _ _ (by linarith) (by linarith)
  · have := round_double_mono (1 - round_double (a * c)) 1 (by linarith) (by linarith)
    rwa [round_double_one] at this

theorem blur_factor_center_antitone (a b : ℚ) (ha : 0 ≤ a) (hab : a ≤ b) (hb : b ≤ 1) :
    0 ≤ blur_factor_center false b ∧
    blur_factor_center false b ≤ blur_factor_center false a := by
  obtain ⟨p0, pab, p1⟩ := blur_pct_spec a b ha hab hb
  unfold blur_factor_center
  simp only [Bool.not_false, if_true]
  generalize round_double (1 - round_double (b * round_double (1 - round_double (1 / 9))))
    = pb at p0 pab ⊢
  generalize round_double (1 - round_double (a * round_double (1 - round_double (1 / 9))))
    = pa at pab p1 ⊢
  have hnb : 0 ≤ round_double (pb * 8) := round_double_nonneg _ (by linarith)
  have hnab : round_double (pb * 8) ≤ round_double (pa * 8) :=
    round_double_mono _ _ (by linarith) (by linarith)
  have hda : 0 < round_double (round_double 1.1 - pa) :=
    lt_of_lt_of_le blur_den_pos
      (round_double_mono _ _ (by
        have : (1 : ℚ) ≤ round_double 1.1 := by
          have := round_double_mono 1 1.1 (by norm_num) (by norm_num)
          rwa [round_double_one] at this
        linarith) (by linarith))
  have hdab : round_double (round_double 1.1 - pa) ≤ round_double (round_double 1.1 - pb) :=
    round_double_mono _ _ (by
      have : (1 : ℚ) ≤ round_double 1.1 := by
        have := round_double_mono 1 1.1 (by norm_num) (by norm_num)
        rwa [round_double_one] at this
      linarith) (by linarith)
  have hdb : 0 < round_double (round_double 1.1 - pb) := hda.trans_le hdab
  have hq : 0 ≤ round_double (pb * 8) / round_double (round_double 1.1 - pb) :=
    div_nonneg hnb hdb.le
  refine ⟨round_double_nonneg _ hq, round_double_mono _ _ hq ?_⟩
  exact div_le_div₀ (hnb.trans hnab) hnab hda hdab

theorem trunc_mono_nonneg (x y : ℚ) (hx : 0 ≤ x) (hxy : x ≤ y) : trunc x ≤ trunc y := by
  have hy : 0 ≤ y := hx.trans hxy
  have h1 := trunc_spec x
  have h2 := trunc_spec y
  have tx : (0 : ℚ) ≤ ((trunc x : Int) : ℚ) := by exact_mod_cast trunc_nonneg x hx
  have ty : (0 : ℚ) ≤ ((trunc y : Int) : ℚ) := by exact_mod_cast trunc_nonneg y hy
  have h3 : ((trunc x : Int) : ℚ) ≤ x := by
    have := h1.2
    rwa [abs_of_nonneg tx, abs_of_nonneg hx] at this
  have h4 : y < ((trunc y : Int) : ℚ) + 1 := by
    have := (abs_lt.1 h2.1).1
    linarith
  have h5 : ((trunc x : Int) : ℚ) < ((trunc y : Int) : ℚ) + 1 := by linarith
  have h6 : trunc x < trunc y + 1 := by exact_mod_cast h5
  omega

/-- C14 (as amended): with `blur_background_fixed` off, for opacities
`0 ≤ a < b ≤ 1` the centre weight `win_blur_background` computes for `a`, in
`double` arithmetic, is not smaller than the one it computes for `b`: the blur
does not get stronger as the opacity decreases.  The same holds for the
weight as it is stored in the kernel, in fixed point. -/
theorem blur_factor_center_decreasing (a b : ℚ) (ha : 0 ≤ a) (hab : a < b) (hb : b ≤ 1) :
    blur_factor_center false b ≤ blur_factor_center false a ∧
    trunc (blur_factor_center false b * 65536) ≤ trunc (blur_factor_center false a * 65536) := by
  obtain ⟨h0, h1⟩ := blur_factor_center_antitone a b ha hab.le hb
  exact ⟨h1, trunc_mono_nonneg _ _ (by linarith) (by linarith)⟩

/-- Witness of C14: the opacities 0 and 1. -/
theorem blur_factor_center_decreasing_witness :
    ((0 : ℚ) ≤ 0 ∧ (0 : ℚ) < 1 ∧ (1 : ℚ) ≤ 1) ∧
    (blur_factor_center false 1 ≤ blur_factor_center false 0 ∧
      trunc (blur_factor_center false 1 * 65536) ≤ trunc (blur_factor_center false 0 * 65536)) :=
  ⟨⟨le_refl 0, by norm_num, le_refl 1⟩,
    blur_factor_center_decreasing 0 1 (le_refl 0) (by norm_num) (le_refl 1)⟩

/-- C14 fails as stated: for the opacity 0 the code computes the centre weight
5629499534213115 / 70368744177664 (79.99999999999993, stored as 5242879) and for
the opacity 1 the centre weight 8096358880666063 / 9007199254740992
(0.8988764044943823, stored as 58908), so the weight for the smaller opacity is
not below the weight for the larger one. -/
theorem blur_factor_center_not_increasing :
    ((0 : ℚ) ≤ 0 ∧ (0 : ℚ) < 1 ∧ (1 : ℚ) ≤ 1) ∧
    blur_factor_center false 0 = 5629499534213115 / 70368744177664 ∧
    blur_factor_center false 1 = 8096358880666063 / 9007199254740992 ∧
    trunc (blur_factor_center false 0 * 65536) = 5242879 ∧
    trunc (blur_factor_center false 1 * 65536) = 58908 ∧
    ¬ (blur_factor_center false 0 ≤ blur_factor_center false 1) := by
  decide!

/-! ### The passes of `xr_blur_dst` -/

theorem xr_blur_dst_passes_spec (ps : session_t) (tgt tmp : Nat) (x y wid hei : Int)
    (hne : tmp ≠ tgt) (kerns : List (List Int)) :
    ∀ i : Nat,
      ((xr_blur_dst_passes ps tgt x y wid hei i
          (if i % 2 = 0 then tgt else tmp) (if i % 2 = 0 then tmp else tgt) kerns).2.filter
          (fun c => c != xcb_call_t.assert_failure)
        = (List.range kerns.length).flatMap
            (fun j => blur_pass_spec tgt tmp x y wid hei (i + j) (kerns.getD j []))) ∧
      (xr_blur_dst_passes ps tgt x y wid hei i
          (if i % 2 = 0 then tgt else tmp) (if i % 2 = 0 then tmp else tgt) kerns).1
        = (if (i + kerns.length) % 2 = 0 then tgt else tmp) ∧
      (i + kerns.length < ps.max_blur_pass →
        xcb_call_t.assert_failure ∉ (xr_blur_dst_passes ps tgt x y wid hei i
          (if i % 2 = 0 then tgt else tmp) (if i % 2 = 0 then tmp else tgt) kerns).2) := by
  induction kerns with
  | nil =>
    intro i
    simp [xr_blur_dst_passes]
  | cons k rest ih =>
    intro i
    have h := ih (i + 1)
    have hpar : (i + 1) % 2 = 0 ↔ ¬ i % 2 = 0 := by omega
    have hsw1 : (if (i + 1) % 2 = 0 then tgt else tmp) = (if i % 2 = 0 then tmp else tgt) := by
      by_cases hi : i % 2 = 0
      · rw [if_pos hi, if_neg (by omega)]
      · rw [if_neg hi, if_pos (by omega)]
    have hsw2 : (if (i + 1) % 2 = 0 then tmp else tgt) = (if i % 2 = 0 then tgt else tmp) := by
      by_cases hi : i % 2 = 0
      · rw [if_pos hi, if_neg (by omega)]
      · rw [if_neg hi, if_pos (by omega)]
    rw [hsw1, hsw2] at h
    obtain ⟨h1, h2, h3⟩ := h
    unfold xr_blur_dst_passes
    simp only []
    refine ⟨?_, ?_, ?_⟩
    · rw [List.filter_append, List.filter_append, h1, List.length_cons,
        List.range_succ_eq_map, List.flatMap_cons, List.flatMap_map]
      have hrest : ∀ j, blur_pass_spec tgt tmp x y wid hei (i + 1 + j) (rest.getD j [])
          = blur_pass_spec tgt tmp x y wid hei (i + (j + 1)) ((k :: rest).getD (j + 1) []) := by
        intro j
        rw [show i + 1 + j = i + (j + 1) by omega]
        simp
      simp only [Function.comp_def, ← hrest]
      have hchk : (if i + 1 < ps.max_blur_pass then []
          else [xcb_call_t.assert_failure]).filter (fun c => c != xcb_call_t.assert_failure)
            = [] := by
        split_ifs <;> simp
      rw [hchk]
      by_cases hi : i % 2 = 0
      · simp [blur_pass_spec, hi]
      · have : (tgt == tmp) = false := by simpa using fun h => hne h.symm
        simp [blur_pass_spec, hi, this]
    · rw [h2, List.length_cons, show i + (rest.length + 1) = i + 1 + rest.length by omega]
    · intro hlt
      simp only [List.length_cons] at hlt
      have h3 := h3 (by omega)
      have : i + 1 < ps.max_blur_pass := by omega
      simp [this, h3]

theorem filter_composite_passes (tgt tmp : Nat) (x y wid hei : Int) (f : Nat → List Int)
    (l : List Nat) :
    (l.flatMap fun j => blur_pass_spec tgt tmp x y wid hei j (f j)).filter
        xcb_call_t.is_composite
      = l.map fun j =>
          if j % 2 = 0 then
            xcb_call_t.render_composite pict_op_t.SRC tgt XCB_NONE tmp x y 0 0 0 0 wid hei
          else xcb_call_t.render_composite pict_op_t.SRC tmp XCB_NONE tgt 0 0 0 0 x y wid hei := by
  induction l with
  | nil => rfl
  | cons j l ih =>
    rw [List.flatMap_cons, List.filter_append, ih, List.map_cons]
    by_cases hj : j % 2 = 0 <;> simp [blur_pass_spec, hj, xcb_call_t.is_composite]

theorem filter_composite_of_filter (l : List xcb_call_t) :
    l.filter xcb_call_t.is_composite
      = (l.filter fun c => c != xcb_call_t.assert_failure).filter xcb_call_t.is_composite := by
  rw [List.filter_filter]
  congr 1
  funext c
  cases c <;> simp [xcb_call_t.is_composite]

/-- C15: for a chain of `n ≥ 1` kernels and an intermediate picture that was
created (its handle is not `XCB_NONE` and is new, that is, not the handle of
the buffer), `xr_blur_dst` returns true; apart from failed assertions its
requests are the creation of the intermediate picture, its clip, then for each
kernel `i` the three requests of `blur_pass_spec` (the convolution filter set
on the source, the composite from the buffer at `(x, y)` to the intermediate
picture at the origin for even `i` and back for odd `i`, the filter reset),
then one composite from the intermediate picture to the buffer at `(x, y)`
exactly when `n` is odd, then the release of the intermediate picture.  So
there are `n + n % 2` composites, and the last one writes `wid` x `hei` pixels
at `(x, y)` of the buffer.  No assertion fails when `n` is below
`MAX_BLUR_PASS`.  When the intermediate picture cannot be created,
`xr_blur_dst` returns false and sends no composite. -/
theorem xr_blur_dst_composites (ps : session_t) (tgt_buffer : Nat) (x y wid hei : Int)
    (blur_kerns : List (List Int)) (reg_clip : Option region_t) (tmp_picture : Nat)
    (hn : 1 ≤ blur_kerns.length) (htmp : tmp_picture ≠ XCB_NONE)
    (hfresh : tmp_picture ≠ tgt_buffer) :
    (xr_blur_dst ps tgt_buffer x y wid hei blur_kerns reg_clip tmp_picture).1 = true ∧
    (xr_blur_dst ps tgt_buffer x y wid hei blur_kerns reg_clip tmp_picture).2.filter
        (fun c => c != xcb_call_t.assert_failure)
      = [xcb_call_t.create_picture_with_pictfmt wid hei tmp_picture] ++
        xr_blur_dst_clip reg_clip tmp_picture ++
        ((List.range blur_kerns.length).flatMap fun i =>
          blur_pass_spec tgt_buffer tmp_picture x y wid hei i (blur_kerns.getD i [])) ++
        (if blur_kerns.length % 2 = 1 then
          [xcb_call_t.render_composite pict_op_t.SRC tmp_picture XCB_NONE tgt_buffer
            0 0 0 0 x y wid hei]
         else []) ++
        [xcb_call_t.render_free_picture tmp_picture] ∧
    ((xr_blur_dst ps tgt_buffer x y wid hei blur_kerns reg_clip tmp_picture).2.filter
        xcb_call_t.is_composite).length = blur_kerns.length + blur_kerns.length % 2 ∧
    ((xr_blur_dst ps tgt_buffer x y wid hei blur_kerns reg_clip tmp_picture).2.filter
        xcb_call_t.is_composite).getLast?
      = some (xcb_call_t.render_composite pict_op_t.SRC tmp_picture XCB_NONE tgt_buffer
          0 0 0 0 x y wid hei) ∧
    (blur_kerns.length < ps.max_blur_pass →
      xcb_call_t.assert_failure ∉
        (xr_blur_dst ps tgt_buffer x y wid hei blur_kerns reg_clip tmp_picture).2) ∧
    (xr_blur_dst ps tgt_buffer x y wid hei blur_kerns reg_clip XCB_NONE).1 = false ∧
    (xr_blur_dst ps tgt_buffer x y wid hei blur_kerns reg_clip XCB_NONE).2.filter
        xcb_call_t.is_composite = [] := by
  have hloop := xr_blur_dst_passes_spec ps tgt_buffer tmp_picture x y wid hei hfresh blur_kerns 0
  simp only [Nat.zero_mod, if_true, Nat.zero_add] at hloop
  obtain ⟨hl1, hl2, hl3⟩ := hloop
  have hne : blur_kerns.isEmpty = false := by
    cases blur_kerns with
    | nil => simp at hn
    | cons k rest => rfl
  have ht : (tmp_picture == XCB_NONE) = false := by simpa using htmp
  have hclip : (xr_blur_dst_clip reg_clip tmp_picture).filter
        (fun c => c != xcb_call_t.assert_failure) = xr_blur_dst_clip reg_clip tmp_picture ∧
      xcb_call_t.assert_failure ∉ xr_blur_dst_clip reg_clip tmp_picture ∧
      (xr_blur_dst_clip reg_clip tmp_picture).filter xcb_call_t.is_composite = [] := by
    cases reg_clip <;> simp [xr_blur_dst_clip, xcb_call_t.is_composite]
  have hback : (if ((xr_blur_dst_passes ps tgt_buffer x y wid hei 0 tgt_buffer tmp_picture
        blur_kerns).1 != tgt_buffer) = true then
        [xcb_call_t.render_composite pict_op_t.SRC
          (xr_blur_dst_passes ps tgt_buffer x y wid hei 0 tgt_buffer tmp_picture blur_kerns).1
          XCB_NONE tgt_buffer 0 0 0 0 x y wid hei]
      else [])
      = (if blur_kerns.length % 2 = 1 then
          [xcb_call_t.render_composite pict_op_t.SRC tmp_picture XCB_NONE tgt_buffer
            0 0 0 0 x y wid hei]
         else []) := by
    rw [hl2]
    by_cases hp : blur_kerns.length % 2 = 0
    · have hp1 : ¬ blur_kerns.length % 2 = 1 := by omega
      simp [hp, hp1]
    · have hp1 : blur_kerns.length % 2 = 1 := by omega
      simp [hp, hp1, hfresh]
  have htrace : (xr_blur_dst ps tgt_buffer x y wid hei blur_kerns reg_clip tmp_picture).2.filter
        (fun c => c != xcb_call_t.assert_failure)
      = [xcb_call_t.create_picture_with_pictfmt wid hei tmp_picture] ++
        xr_blur_dst_clip reg_clip tmp_picture ++
        ((List.range blur_kerns.length).flatMap fun i =>
          blur_pass_spec tgt_buffer tmp_picture x y wid hei i (blur_kerns.getD i [])) ++
        (if blur_kerns.length % 2 = 1 then
          [xcb_call_t.render_composite pict_op_t.SRC tmp_picture XCB_NONE tgt_buffer
            0 0 0 0 x y wid hei]
         else []) ++
        [xcb_call_t.render_free_picture tmp_picture] := by
    unfold xr_blur_dst
    simp only [hne, ht, hback, Bool.false_eq_true, if_false]
    simp only [List.filter_append, hl1, hclip.1]
    split_ifs <;> simp
  have hcomp : (xr_blur_dst ps tgt_buffer x y wid hei blur_kerns reg_clip tmp_picture).2.filter
        xcb_call_t.is_composite
      = ((List.range blur_kerns.length).map fun j =>
          if j % 2 = 0 then
            xcb_call_t.render_composite pict_op_t.SRC tgt_buffer XCB_NONE tmp_picture
              x y 0 0 0 0 wid hei
          else xcb_call_t.render_composite pict_op_t.SRC tmp_picture XCB_NONE tgt_buffer
              0 0 0 0 x y wid hei) ++
        (if blur_kerns.length % 2 = 1 then
          [xcb_call_t.render_composite pict_op_t.SRC tmp_picture XCB_NONE tgt_buffer
            0 0 0 0 x y wid hei]
         else []) := by
    rw [filter_composite_of_filter, htrace]
    simp only [List.filter_append, filter_composite_passes, hclip.2.2]
    split_ifs <;> simp [xcb_call_t.is_composite]
  refine ⟨?_, htrace, ?_, ?_, ?_, ?_, ?_⟩
  · unfold xr_blur_dst
    simp [hne, ht]
  · rw [hcomp]
    split_ifs <;> simp <;> omega
  · rw [hcomp]
    by_cases hp : blur_kerns.length % 2 = 1
    · rw [if_pos hp, List.getLast?_append]
      simp
    · rw [if_neg hp, List.append_nil]
      obtain ⟨m, hm⟩ : ∃ m, blur_kerns.length = m + 1 := ⟨blur_kerns.length - 1, by omega⟩
      rw [hm, List.range_succ, List.map_append, List.map_singleton, List.getLast?_append]
      have hm2 : ¬ m % 2 = 0 := by omega
      simp [hm2]
  · intro hlt
    have hl3 := hl3 hlt
    unfold xr_blur_dst
    simp only [hne, ht, Bool.false_eq_true, if_false]
    have hc := hclip.2.1
    simp only [List.mem_append, not_or]
    refine ⟨⟨⟨⟨⟨?_, ?_⟩, hc⟩, hl3⟩, ?_⟩, ?_⟩
    · simp
    · simp
    · split_ifs <;> simp
    · simp
  · unfold xr_blur_dst
    simp
  · unfold xr_blur_dst
    simp only [beq_self_eq_true, if_true]
    split_ifs <;> simp [xcb_call_t.is_composite]

/-- Witness of C15: a chain of two kernels on the sample session. -/
theorem xr_blur_dst_composites_witness :
    (1 ≤ sample_blur_kerns.length ∧ (30 : Nat) ≠ XCB_NONE ∧
      (30 : Nat) ≠ sample_session.tgt_buffer.pict) ∧
    (xr_blur_dst sample_session sample_session.tgt_buffer.pict 5 6 10 10 sample_blur_kerns
        (some ∅) 30).1 = true ∧
    ((xr_blur_dst sample_session sample_session.tgt_buffer.pict 5 6 10 10 sample_blur_kerns
        (some ∅) 30).2.filter xcb_call_t.is_composite).length = 2 :=
  have h := xr_blur_dst_composites sample_session sample_session.tgt_buffer.pict 5 6 10 10
    sample_blur_kerns (some ∅) 30 (by decide) (by decide) (by decide)
  ⟨⟨by decide, by decide, by decide⟩, h.1, h.2.2.1⟩

/-! ### The resources of `win_build_shadow` -/

/-- C13: when the image, a pixmap or a picture cannot be created,
`win_build_shadow` returns false, leaves the window (hence its shadow binding)
as it was, and frees exactly the pixmaps, pictures and graphics contexts it
created and destroys exactly the images it built, each once.  Otherwise it
returns true, the shadow binding holds the ARGB pixmap and the ARGB picture,
and of what it created (the two pixmaps, the two pictures, the graphics
context, the image) it released the 8-bit pixmap, the 8-bit picture, the
graphics context and the image, each once, so that only the ARGB pixmap and
the ARGB picture remain. -/
theorem win_build_shadow_atomic (ps : session_t) (w : win) (opacity : ℚ)
    (reply : shadow_reply_t) :
    (reply.fails = true →
      (win_build_shadow ps w opacity reply).1 = false ∧
      (win_build_shadow ps w opacity reply).2.1 = w ∧
      freed_pixmaps (win_build_shadow ps w opacity reply).2.2
        = created_pixmaps (win_build_shadow ps w opacity reply).2.2 ∧
      freed_pictures (win_build_shadow ps w opacity reply).2.2
        = created_pictures (win_build_shadow ps w opacity reply).2.2 ∧
      freed_gcs (win_build_shadow ps w opacity reply).2.2
        = created_gcs (win_build_shadow ps w opacity reply).2.2 ∧
      destroyed_images (win_build_shadow ps w opacity reply).2.2
        = created_images (win_build_shadow ps w opacity reply).2.2) ∧
    (reply.fails = false →
      (win_build_shadow ps w opacity reply).1 = true ∧
      (win_build_shadow ps w opacity reply).2.1.shadow_paint.pixmap = reply.shadow_pixmap_argb ∧
      (win_build_shadow ps w opacity reply).2.1.shadow_paint.pict = reply.shadow_picture_argb ∧
      created_pixmaps (win_build_shadow ps w opacity reply).2.2
        = [reply.shadow_pixmap, reply.shadow_pixmap_argb] ∧
      freed_pixmaps (win_build_shadow ps w opacity reply).2.2 = [reply.shadow_pixmap] ∧
      created_pictures (win_build_shadow ps w opacity reply).2.2
        = [reply.shadow_picture, reply.shadow_picture_argb] ∧
      freed_pictures (win_build_shadow ps w opacity reply).2.2 = [reply.shadow_picture] ∧
      created_gcs (win_build_shadow ps w opacity reply).2.2 = [reply.gc] ∧
      freed_gcs (win_build_shadow ps w opacity reply).2.2 = [reply.gc] ∧
      created_images (win_build_shadow ps w opacity reply).2.2 = 1 ∧
      destroyed_images (win_build_shadow ps w opacity reply).2.2 = 1) := by
  obtain ⟨img, p8, p32, pic8, pic32, gc⟩ := reply
  cases img with
  | none =>
    refine ⟨fun _ => ?_, fun h => ?_⟩
    · simp [win_build_shadow, freed_pixmaps, created_pixmaps, freed_pictures, created_pictures,
        freed_gcs, created_gcs, destroyed_images, created_images]
    · simp [shadow_reply_t.fails] at h
  | some img =>
    by_cases h1 : p8 = XCB_NONE <;> by_cases h2 : p32 = XCB_NONE <;>
      by_cases h3 : pic8 = XCB_NONE <;> by_cases h4 : pic32 = XCB_NONE <;>
      simp [win_build_shadow, shadow_picture_err, shadow_reply_t.fails, h1, h2, h3, h4,
        freed_pixmaps, created_pixmaps, freed_pictures, created_pictures,
        freed_gcs, created_gcs, destroyed_images, created_images] <;>
      split_ifs <;> simp

/-! ### The kernels of `win_blur_background` -/

end Compton
